import Mathlib

/-!
Verification development for the MEASURE unimolecular reaction network core
(`measure/network.py`).  The Python source is shallowly embedded over exact
rationals: numpy float arrays become `List ℚ`, fallible operations return
`Except String`, and the external collaborators (state counting, kinetics,
collision model, the three solver back ends) are oracle parameters collected
in a structure.  The exponential function used by the per-temperature
Boltzmann weighting is not representable over `ℚ`; inside the executable
pipeline it is an oracle parameter `pyexp`, and the equilibrium-rescaling
claims are additionally settled over `ℝ` with the genuine `Real.exp`.
-/

set_option maxRecDepth 4000

/-- The molar gas constant as provided by the external `chempy.constants`
module (value 8.314472 J/(mol*K), CODATA 2002).  Modelled from the spec:
the constants module is not part of the excerpted source. -/
def Rgas : ℚ := 8.314472

/-- ASCII lower-casing of one character, the behaviour of Python 2
`str.lower` on the ASCII method names appearing in the source. -/
def lowerChar (c : Char) : Char :=
  if 65 ≤ c.toNat ∧ c.toNat ≤ 90 then Char.ofNat (c.toNat + 32) else c

/-- Python `s.lower()` for ASCII strings. -/
def pyLower (s : String) : String := ⟨s.data.map lowerChar⟩

/-- Python 2 `round`: round half away from zero.  The source feeds the result
to `int(...)`, so we return an integer directly. -/
def pyRound (q : ℚ) : ℤ := if 0 ≤ q then ⌊q + 1/2⌋ else -⌊-q + 1/2⌋

/-- Python sequence indexing `l[i]` for a nonnegative index: out of range
raises `IndexError`. -/
def pyIdx (l : List α) (i : ℕ) : Except String α :=
  match l.get? i with
  | some a => Except.ok a
  | none => Except.error "IndexError: index out of range"

/-- Monadic map over `Except`, written as an explicit recursion (the
Python `for` loops building a list of per-element results). -/
def mapME (f : α → Except String β) : List α → Except String (List β)
  | [] => Except.ok []
  | a :: t => do
    let b ← f a
    let bs ← mapME f t
    Except.ok (b :: bs)

/-- Monadic left fold over `Except` (the Python `for` loops threading an
accumulator). -/
def foldlME (f : σ → α → Except String σ) : σ → List α → Except String σ
  | s, [] => Except.ok s
  | s, a :: t => do
    let s2 ← f s a
    foldlME f s2 t

/-- Clamped start position of a Python slice `l[i:]` (negative indices count
from the end). -/
def pyStart (len : ℕ) (i : ℤ) : ℕ :=
  if 0 ≤ i then min i.toNat len else len - min i.natAbs len

/-- Clamped stop position of a Python slice `l[:j]` (negative indices count
from the end). -/
def pyStop (len : ℕ) (j : ℤ) : ℕ :=
  if 0 ≤ j then min j.toNat len else len - min j.natAbs len

/-- Python slice `l[:j]`. -/
def pySliceTo (l : List α) (j : ℤ) : List α := l.take (pyStop l.length j)

/-- numpy slice assignment `dst[start:] = src`: the source length must match
the slice length exactly, otherwise numpy raises a broadcast `ValueError`. -/
def pySliceAssign (dst : List α) (start : ℤ) (src : List α) : Except String (List α) :=
  if src.length = dst.length - pyStart dst.length start then
    Except.ok (dst.take (pyStart dst.length start) ++ src)
  else
    Except.error "ValueError: could not broadcast input array"

/-- `numpy.argmax`: index of the first occurrence of the largest entry
(0 on an empty array stands in for numpy's error there; the source only
applies it to nonempty arrays). -/
def argmaxGo (best : ℕ) (bestVal : ℚ) (i : ℕ) : List ℚ → ℕ
  | [] => best
  | x :: xs => if bestVal < x then argmaxGo i x (i + 1) xs else argmaxGo best bestVal (i + 1) xs

/-- `numpy.argmax` over a rational array. -/
def argmax : List ℚ → ℕ
  | [] => 0
  | x :: xs => argmaxGo 0 x 1 xs

/-- `numpy.arange(a, b, step)` over exact rationals. -/
def arangeQ (a b step : ℚ) : List ℚ :=
  (List.range (Int.toNat ⌈(b - a) / step⌉)).map (fun k : ℕ => a + (k : ℚ) * step)

/-- `numpy.linspace(a, b, n)` over exact rationals (endpoint included). -/
def linspaceQ (a b : ℚ) (n : ℕ) : List ℚ :=
  if n = 0 then []
  else if n = 1 then [a]
  else (List.range n).map (fun k : ℕ => a + (k : ℚ) * ((b - a) / ((n : ℚ) - 1)))

/-- `Network.getEnergyGrains(Emin, Emax, dE, Ngrains)` (network.py lines
83-111).  Neither parameter positive raises `NetworkError`; when both are
positive the spacing implied by `Ngrains` is compared against `dE` and the
finer discretization wins.  `Ngrains = 1` with a positive `dE` reaches the
Python expression `(Emax-Emin)/(Ngrains-1)`, a float division by zero. -/
def getEnergyGrains (Emin Emax dE : ℚ) (Ngrains : ℤ) : Except String (List ℚ) :=
  if Ngrains ≤ 0 ∧ dE ≤ 0 then
    Except.error "You must specify a positive value for either dE or Ngrains."
  else if Ngrains ≤ 0 ∧ 0 < dE then
    Except.ok (arangeQ Emin (Emax + dE) dE)
  else if 0 < Ngrains ∧ dE ≤ 0 then
    Except.ok (linspaceQ Emin Emax Ngrains.toNat)
  else if Ngrains = 1 then
    Except.error "ZeroDivisionError: float division"
  else if dE < (Emax - Emin) / ((Ngrains : ℚ) - 1) then
    Except.ok (arangeQ Emin (Emax + dE) dE)
  else
    Except.ok (linspaceQ Emin Emax Ngrains.toNat)

/-- A transition state carries only its ground-state energy `E0` here
(per the data model every path reaction owns one). -/
structure TransitionState where
  E0 : ℚ
deriving DecidableEq

/-- A chemical species: ground-state energy `E0`, an optional key into the
state-counting oracle (`none` models Python `states is None`), and a label
used only to distinguish species. -/
structure Species where
  label : ℕ
  E0 : ℚ
  states : Option ℕ
deriving DecidableEq

/-- A path reaction: reactant and product channels are species lists, plus
the transition state. -/
structure Reaction where
  reactants : List Species
  products : List Species
  transitionState : TransitionState
deriving DecidableEq

/-- The reaction network (the `Network` attributes used by the embedded
methods). -/
structure Network where
  isomers : List Species
  reactants : List (List Species)
  products : List (List Species)
  pathReactions : List Reaction
deriving DecidableEq

/-- Microcanonical rate tensors `Kij`, `Gnj`, `Fim`; each is indexed by two
integers and an energy-grain axis (the innermost `List ℚ`). -/
structure MicroRates where
  Kij : ℕ → ℕ → List ℚ
  Gnj : ℕ → ℕ → List ℚ
  Fim : ℕ → ℕ → List ℚ

/-- Write `v` into slot `(a, b, :)` of a rate tensor. -/
def updT (f : ℕ → ℕ → List ℚ) (a b : ℕ) (v : List ℚ) : ℕ → ℕ → List ℚ :=
  fun x y => if x = a ∧ y = b then v else f x y

/-- All-zero rate tensors of grain count `n`. -/
def initRates (n : ℕ) : MicroRates :=
  ⟨fun _ _ => List.replicate n 0, fun _ _ => List.replicate n 0, fun _ _ => List.replicate n 0⟩

/-- The external collaborators of the core, as fixed input/output oracles:
state counting (`dos`, `conv`), the kinetics collaborator (`micro`), the
pointwise exponential used by the Boltzmann weighting (`pyexp`), the
collision model (`collFreq`, `collEff`, `genMat`; the bath gas and the
collision-model handle are closed over by the oracles), and the three solver
back ends (`msc`, `rs`, `cse`). -/
structure Oracles where
  dos : ℕ → List ℚ → List ℚ
  conv : List ℚ → List ℚ → List ℚ → List ℚ
  micro : Reaction → List ℚ → List ℚ → Option (List ℚ) → ℚ → List ℚ × List ℚ
  pyexp : ℚ → ℚ
  collFreq : Species → ℚ → ℚ → ℚ
  collEff : Species → ℚ → List ℚ → List ℚ → ℚ → ℚ → ℚ
  genMat : List ℚ → ℚ → List ℚ → List (List ℚ)
  msc : ℚ → ℚ → List ℚ → List (List ℚ) → List ℚ → (ℕ → ℕ → List ℚ) → (ℕ → ℕ → List ℚ) →
    (ℕ → ℕ → List ℚ) → List ℚ → ℕ → ℕ → ℕ → Except String (List (List ℚ) × List ℚ)
  rs : ℚ → ℚ → List ℚ → List (List ℚ) → List (List (List ℚ)) → (ℕ → ℕ → List ℚ) →
    (ℕ → ℕ → List ℚ) → (ℕ → ℕ → List ℚ) → List ℚ → ℕ → ℕ → ℕ →
    Except String (List (List ℚ) × List ℚ)
  cse : ℚ → ℚ → List ℚ → List (List ℚ) → List (List (List ℚ)) → (ℕ → ℕ → List ℚ) →
    (ℕ → ℕ → List ℚ) → (ℕ → ℕ → List ℚ) → List ℚ → ℕ → ℕ → ℕ →
    Except String (List (List ℚ) × List ℚ)

/-- One isomer row of the density-of-states matrix (network.py lines
231-236): get the raw densities from the state-counting collaborator and
shift right by `round(E0[i]/dE)` grid cells via
`densStates[i,r0:] = densStates0[:-r0+len(densStates0)]`. -/
def isomerRow (O : Oracles) (Elist : List ℚ) (dE : ℚ) (sp : Species) (e0 : ℚ) :
    Except String (List ℚ) :=
  match sp.states with
  | none => Except.error "AttributeError: states is None"
  | some sid =>
    let raw := O.dos sid Elist
    let r0 : ℤ := pyRound (e0 / dE)
    pySliceAssign (List.replicate Elist.length 0) r0
      (pySliceTo raw ((raw.length : ℤ) - r0))

/-- One reactant-channel row of the density-of-states matrix (network.py
lines 239-249): if either constituent species lacks state-counting data the
channel is skipped and its row stays zero; otherwise the two raw densities
are convolved and shifted exactly like an isomer row.  The `states is None`
tests short-circuit like the Python `and`. -/
def reactantRow (O : Oracles) (Elist : List ℚ) (dE : ℚ) (ch : List Species) (e0 : ℚ) :
    Except String (List ℚ) :=
  match ch.get? 0 with
  | none => Except.error "IndexError: index out of range"
  | some s0 =>
    match s0.states with
    | none => Except.ok (List.replicate Elist.length 0)
    | some sid0 =>
      match ch.get? 1 with
      | none => Except.error "IndexError: index out of range"
      | some s1 =>
        match s1.states with
        | none => Except.ok (List.replicate Elist.length 0)
        | some sid1 =>
          let d0 := O.dos sid0 Elist
          let d1 := O.dos sid1 Elist
          let c := O.conv d0 d1 Elist
          let r0 : ℤ := pyRound (e0 / dE)
          pySliceAssign (List.replicate Elist.length 0) r0
            (pySliceTo c ((c.length : ℤ) - r0))

/-- `Network.calculateDensitiesOfStates(Elist, E0)` (network.py lines
212-252): one row per isomer followed by one row per reactant channel, all
shifted to the common zero of energy.  `dE` is `Elist[1] - Elist[0]`. -/
def calculateDensitiesOfStates (O : Oracles) (net : Network) (Elist : List ℚ)
    (E0 : List ℚ) : Except String (List (List ℚ)) :=
  match pyIdx Elist 1 with
  | Except.error err => Except.error err
  | Except.ok e1 =>
    match pyIdx Elist 0 with
    | Except.error err => Except.error err
    | Except.ok e0g =>
      match mapME (fun p =>
          match pyIdx E0 p.1 with
          | Except.error err => Except.error err
          | Except.ok e => isomerRow O Elist (e1 - e0g) p.2 e) net.isomers.enum with
      | Except.error err => Except.error err
      | Except.ok isoRows =>
        match mapME (fun p =>
            match pyIdx E0 (p.1 + net.isomers.length) with
            | Except.error err => Except.error err
            | Except.ok e => reactantRow O Elist (e1 - e0g) p.2 e) net.reactants.enum with
        | Except.error err => Except.error err
        | Except.ok reacRows => Except.ok (isoRows ++ reacRows)

/-- Classify and process one path reaction (the body of the loop in
`Network.calculateMicrocanonicalRates`, network.py lines 275-297).  The
classification follows the Python membership tests, including the evaluation
order of `rxn.reactants[0]` / `rxn.products[0]` and the short-circuiting of
the `and`/`elif` chain; an unclassifiable topology raises `NetworkError`.
When `rxn.reactants[0]` is an isomer and the first three tests fail, the
association test (line 291) can never fire: its conjunct
`rxn.products[0] in self.isomers` is already known false, so the chain falls
through to the `NetworkError`; the association branch is reachable only with
a non-isomer first reactant. -/
def processPathReaction (O : Oracles) (net : Network) (Elist : List ℚ)
    (densStates : List (List ℚ)) (T : ℚ) (st : MicroRates) (rxn : Reaction) :
    Except String MicroRates :=
  match pyIdx rxn.reactants 0 with
  | Except.error err => Except.error err
  | Except.ok r0 =>
    if r0 ∈ net.isomers then
      match pyIdx rxn.products 0 with
      | Except.error err => Except.error err
      | Except.ok p0 =>
        if p0 ∈ net.isomers then
          let reac := net.isomers.indexOf r0
          let prod := net.isomers.indexOf p0
          let fr := O.micro rxn Elist (densStates.getD reac [])
            (some (densStates.getD prod [])) T
          Except.ok { st with Kij := updT (updT st.Kij prod reac fr.1) reac prod fr.2 }
        else if rxn.products ∈ net.reactants then
          let reac := net.isomers.indexOf r0
          let prod := net.reactants.indexOf rxn.products
          let fr := O.micro rxn Elist (densStates.getD reac [])
            (some (densStates.getD (prod + net.isomers.length) [])) T
          Except.ok { st with
            Gnj := updT st.Gnj prod reac fr.1
            Fim := updT st.Fim reac prod fr.2 }
        else if rxn.products ∈ net.products then
          let reac := net.isomers.indexOf r0
          let prod := net.products.indexOf rxn.products + net.reactants.length
          let fr := O.micro rxn Elist (densStates.getD reac []) none T
          Except.ok { st with Gnj := updT st.Gnj prod reac fr.1 }
        else
          Except.error "NetworkError: unexpected type of path reaction"
    else if rxn.reactants ∈ net.reactants then
      match pyIdx rxn.products 0 with
      | Except.error err => Except.error err
      | Except.ok p0 =>
        if p0 ∈ net.isomers then
          let reac := net.reactants.indexOf rxn.reactants
          let prod := net.isomers.indexOf p0
          let fr := O.micro rxn Elist (densStates.getD (reac + net.isomers.length) [])
            (some (densStates.getD prod [])) T
          Except.ok { st with
            Fim := updT st.Fim prod reac fr.1
            Gnj := updT st.Gnj reac prod fr.2 }
        else
          Except.error "NetworkError: unexpected type of path reaction"
    else
      Except.error "NetworkError: unexpected type of path reaction"

/-- `Network.calculateMicrocanonicalRates(Elist, densStates, T)` (network.py
lines 254-300): fold the per-reaction classification over all path
reactions, starting from all-zero tensors. -/
def calculateMicrocanonicalRates (O : Oracles) (net : Network) (Elist : List ℚ)
    (densStates : List (List ℚ)) (T : ℚ) : Except String MicroRates :=
  foldlME (processPathReaction O net Elist densStates T) (initRates Elist.length)
    net.pathReactions

/-- The Boltzmann-weighted row sum `eqRatios[i] = sum(densStates0[i,:] *
exp(-Elist/R/T)) * dE` of network.py line 365, with the pointwise
exponential factors supplied as the weight list `w`. -/
def eqRatioRow (row w : List ℚ) (dE : ℚ) : ℚ :=
  (List.zipWith (fun d b => d * b) row w).sum * dE

/-- The per-temperature equilibrium rescaling of the density-of-states
matrix (network.py lines 362-366): every row, isomer and reactant channel
alike, is divided by its own Boltzmann-weighted sum (no zero-divisor guard)
and multiplied by `dE`.  Returns the rescaled matrix and the `eqRatios`
vector. -/
def rescaleDOS (dens0 : List (List ℚ)) (w : List ℚ) (dE : ℚ) :
    List (List ℚ) × List ℚ :=
  (dens0.map (fun row => row.map (fun d => d / eqRatioRow row w dE * dE)),
   dens0.map (fun row => eqRatioRow row w dE))

/-- The per-isomer collision matrices `Mcoll` of network.py lines 386-389
and 394-397: `Mcoll[i,:,:] = collFreq[i] * generateCollisionMatrix(Elist, T,
densStates[i,:])`. -/
def buildMcoll (O : Oracles) (Nisom : ℕ) (collFreq : List ℚ) (Elist : List ℚ)
    (T : ℚ) (densStates : List (List ℚ)) : List (List (List ℚ)) :=
  (List.range Nisom).map (fun i =>
    (O.genMat Elist T (densStates.getD i [])).map (fun mrow =>
      mrow.map (fun x => collFreq.getD i 0 * x)))

/-- The `Apply method` dispatch of network.py lines 377-402: the method name
is lower-cased and compared against the three recognized solver names; any
other name raises `NetworkError`.  The modified-strong-collision branch
first scales each isomer's collision frequency by the collision-efficiency
factor; the two matrix-based branches build the full collision matrices; the
chemically-significant-eigenvalues branch passes `eqRatios` instead of
`Ereac`. -/
def applyMethod (O : Oracles) (net : Network) (method : String) (T P : ℚ)
    (Elist : List ℚ) (densStates : List (List ℚ)) (eqRatios : List ℚ)
    (E0 Ereac collFreq : List ℚ) (rates : MicroRates) :
    Except String (List (List ℚ) × List ℚ) :=
  let Nisom := net.isomers.length
  let Nreac := net.reactants.length
  let Nprod := net.products.length
  if pyLower method = "modified strong collision" then
    let collFreq2 := net.isomers.enum.map (fun p =>
      collFreq.getD p.1 0 *
        O.collEff p.2 T Elist (densStates.getD p.1 []) (E0.getD p.1 0) (Ereac.getD p.1 0))
    O.msc T P Elist densStates collFreq2 rates.Kij rates.Fim rates.Gnj Ereac Nisom Nreac Nprod
  else if pyLower method = "reservoir state" then
    let Mcoll := buildMcoll O Nisom collFreq Elist T densStates
    O.rs T P Elist densStates Mcoll rates.Kij rates.Fim rates.Gnj Ereac Nisom Nreac Nprod
  else if pyLower method = "chemically-significant eigenvalues" then
    let Mcoll := buildMcoll O Nisom collFreq Elist T densStates
    O.cse T P Elist densStates Mcoll rates.Kij rates.Fim rates.Gnj eqRatios Nisom Nreac Nprod
  else
    Except.error ("Unknown method \"" ++ method ++ "\".")

/-- One pressure iteration of the sweep (network.py lines 368-404): compute
the raw collision frequencies, dispatch to the selected solver back end, and
write its rate matrix into the `K[t,p,:,:]` slot (numpy checks the shape of
the assigned matrix). -/
def perPressure (O : Oracles) (net : Network) (method : String) (T : ℚ)
    (Elist : List ℚ) (densStates : List (List ℚ)) (eqRatios : List ℚ)
    (E0 Ereac : List ℚ) (rates : MicroRates) (P : ℚ) :
    Except String (List (List ℚ)) :=
  match applyMethod O net method T P Elist densStates eqRatios E0 Ereac
      (net.isomers.map (fun sp => O.collFreq sp T P)) rates with
  | Except.error e => Except.error e
  | Except.ok Mp =>
    if Mp.1.length = net.isomers.length + net.reactants.length + net.products.length ∧
        Mp.1.all (fun mrow =>
          mrow.length = net.isomers.length + net.reactants.length + net.products.length) then
      Except.ok Mp.1
    else
      Except.error "ValueError: could not broadcast input array"

/-- One temperature iteration of the sweep (network.py lines 350-406):
recompute the microcanonical rates at `T`, rescale the densities of states
by their equilibrium ratios, then run every pressure. -/
def perTemperature (O : Oracles) (net : Network) (method : String)
    (Plist : List ℚ) (Elist : List ℚ) (dens0 : List (List ℚ))
    (E0 Ereac : List ℚ) (dE : ℚ) (T : ℚ) :
    Except String (List (List (List ℚ))) :=
  match calculateMicrocanonicalRates O net Elist dens0 T with
  | Except.error e => Except.error e
  | Except.ok rates =>
    mapME (perPressure O net method T Elist
      (rescaleDOS dens0 (Elist.map (fun E => O.pyexp (-E / Rgas / T))) dE).1
      (rescaleDOS dens0 (Elist.map (fun E => O.pyexp (-E / Rgas / T))) dE).2
      E0 Ereac rates) Plist

/-- The computations of network.py lines 312-334 that precede the energy
shift: the grain spacing `dE = Elist[1] - Elist[0]`, the channel
ground-state energies `E0`, and each isomer's first-reactive-grain energy
`Ereac` (initialized to 1e20; the Python condition evaluates
`rxn.reactants[0]` first and `rxn.products[0]` only if needed). -/
def calcPrelim (net : Network) (Elist : List ℚ) :
    Except String (ℚ × List ℚ × List ℚ) := do
  let e1 ← pyIdx Elist 1
  let e0g ← pyIdx Elist 0
  let dE := e1 - e0g
  let E0 := net.isomers.map Species.E0 ++
    net.reactants.map (fun ch => (ch.map Species.E0).sum)
  let Ereac ← mapME (fun iso =>
    foldlME (fun acc rxn => do
      let r0 ← pyIdx rxn.reactants 0
      let cond ← if r0 = iso then pure true else do
        let p0 ← pyIdx rxn.products 0
        pure (decide (p0 = iso))
      if cond then
        pure (if rxn.transitionState.E0 < acc then rxn.transitionState.E0 else acc)
      else
        pure acc) ((10 : ℚ) ^ 20) net.pathReactions) net.isomers
  pure (dE, E0, Ereac)

/-- Shift every path reaction's transition-state energy down by `Emin`
(network.py lines 338-339). -/
def shiftRxns (rxns : List Reaction) (Emin : ℚ) : List Reaction :=
  rxns.map (fun r => { r with transitionState := ⟨r.transitionState.E0 - Emin⟩ })

/-- Add `Emin` back onto every transition-state energy (network.py lines
409-410). -/
def unshiftRxns (rxns : List Reaction) (Emin : ℚ) : List Reaction :=
  rxns.map (fun r => { r with transitionState := ⟨r.transitionState.E0 + Emin⟩ })

/-- The temperature/pressure sweep of network.py lines 344-406: assemble
the density-of-states tensor once, then run every temperature (and, inside,
every pressure). -/
def runSweep (O : Oracles) (net2 : Network) (method : String)
    (Tlist Plist Elist2 E0s Ereacs : List ℚ) (dE : ℚ) :
    Except String (List (List (List (List ℚ)))) :=
  match calculateDensitiesOfStates O net2 Elist2 E0s with
  | Except.error e => Except.error e
  | Except.ok dens0 =>
    mapME (perTemperature O net2 method Plist Elist2 dens0 E0s Ereacs dE) Tlist

/-- `Network.calculateRateCoefficients(Tlist, Plist, Elist, method)`
(network.py lines 302-413).  Besides the `k(T,P)` result, the embedding
returns the post-call state of the data the Python code mutates in place:
the path-reaction list (transition-state energies) and the caller's `Elist`
array.  The energy shift by `Emin = Elist[0]` is applied before the sweep;
the un-shift of lines 408-411 sits on the success path only, so any error
propagating out of the sweep leaves the shifted values behind. -/
def calculateRateCoefficients (O : Oracles) (net : Network)
    (Tlist Plist Elist : List ℚ) (method : String) :
    (List Reaction × List ℚ) × Except String (List (List (List (List ℚ)))) :=
  match calcPrelim net Elist with
  | Except.error e => ((net.pathReactions, Elist), Except.error e)
  | Except.ok pre =>
    match runSweep O { net with pathReactions := shiftRxns net.pathReactions Elist.headI }
        method Tlist Plist (Elist.map (fun x => x - Elist.headI))
        (pre.2.1.map (fun x => x - Elist.headI))
        (pre.2.2.map (fun x => x - Elist.headI)) pre.1 with
    | Except.error e =>
      ((shiftRxns net.pathReactions Elist.headI,
        Elist.map (fun x => x - Elist.headI)), Except.error e)
    | Except.ok K =>
      ((unshiftRxns (shiftRxns net.pathReactions Elist.headI) Elist.headI,
        (Elist.map (fun x => x - Elist.headI)).map (fun x => x + Elist.headI)),
       Except.ok K)

/-- The inner scan of network.py lines 181-184: walk `r` down from the top
grain towards `maxIndex` until the equilibrium-distribution ratio first
exceeds `tol` (then the outer loop's `done` flag is set) or `r` reaches
`maxIndex` (then `done` stays false). -/
def scanDown (eqDist : List ℚ) (mx tol : ℚ) (maxIndex : ℕ) (r : ℕ) : ℕ × Bool :=
  if maxIndex < r then
    if tol < eqDist.getD r 0 / mx then (r, true)
    else scanDown eqDist mx tol maxIndex (r - 1)
  else (r, false)
termination_by r
decreasing_by omega

/-- The equilibrium-distribution probe of network.py lines 170-173: the
normalized `eqDist` vector on the 251-point trial grid. -/
def eqDistOf (O : Oracles) (sid : ℕ) (Elist : List ℚ) (Tmax : ℚ) : List ℚ :=
  (List.zipWith (fun d b => d * b) (O.dos sid Elist)
      (Elist.map (fun E => O.pyexp (-E / Rgas / Tmax)))).map
    (fun x => x / (List.zipWith (fun d b => d * b) (O.dos sid Elist)
      (Elist.map (fun E => O.pyexp (-E / Rgas / Tmax)))).sum)

/-- The decision tail of one Emax-bounding iteration (network.py lines
174-189), taking the trial grid and its equilibrium distribution: either the
peak-to-tail ratio is still too large (grow the margin by another 50·R·Tmax,
`done` stays false) or the distribution has decayed and the grid is cut at
the scanned-down index. -/
def autoLoopTail (O : Oracles) (isomer : Species) (Emin Tmax mult : ℚ)
    (Elist eqDist : List ℚ) : Except String (ℚ × ℚ × Bool) :=
  if eqDist.getD (eqDist.length - 1) 0 / eqDist.getD (argmax eqDist) 0
      < 1 / 10000 then
    if 1 / 10000 < |1 - (eqDist.take (scanDown eqDist
        (eqDist.getD (argmax eqDist) 0) (1 / 10000) (argmax eqDist)
        (251 - 1)).1).sum / eqDist.sum| then
      Except.ok (mult + 50, Elist.getD (scanDown eqDist
        (eqDist.getD (argmax eqDist) 0) (1 / 10000) (argmax eqDist)
        (251 - 1)).1 0 + Emin, false)
    else
      Except.ok (mult, Elist.getD (scanDown eqDist
        (eqDist.getD (argmax eqDist) 0) (1 / 10000) (argmax eqDist)
        (251 - 1)).1 0 + Emin,
        (scanDown eqDist (eqDist.getD (argmax eqDist) 0) (1 / 10000)
          (argmax eqDist) (251 - 1)).2)
  else
    Except.ok (mult + 50, ((⌈isomer.E0 + mult * Rgas * Tmax⌉ : ℤ) : ℚ), false)

/-- One iteration of the Emax-bounding loop of
`Network.autoGenerateEnergyGrains` (network.py lines 164-191), mapping the
current multiplier to the next `(mult, Emax, done)` state.  The trial grid
always has 251 grains; the isomer's `states` handle is dereferenced inside
the body, as in the source. -/
def autoLoopBody (O : Oracles) (isomer : Species) (Emin Tmax : ℚ) (mult : ℚ) :
    Except String (ℚ × ℚ × Bool) :=
  match getEnergyGrains 0 (((⌈isomer.E0 + mult * Rgas * Tmax⌉ : ℤ) : ℚ) - Emin) 0
      251 with
  | Except.error e => Except.error e
  | Except.ok Elist =>
    match isomer.states with
    | none => Except.error "AttributeError: states is None"
    | some sid =>
      if (O.dos sid Elist).length = Elist.length then
        autoLoopTail O isomer Emin Tmax mult Elist (eqDistOf O sid Elist Tmax)
      else
        Except.error "ValueError: operands could not be broadcast together"

/-- The `while not done and iterCount < maxIter` driver of network.py lines
160-191, with the remaining iteration budget as fuel (`maxIter = 5`). -/
def autoLoopGo (O : Oracles) (isomer : Species) (Emin Tmax : ℚ) :
    ℕ → ℚ × ℚ × Bool → Except String (ℚ × ℚ × Bool)
  | 0, st => Except.ok st
  | fuel + 1, st =>
    if st.2.2 then Except.ok st
    else
      match autoLoopBody O isomer Emin Tmax st.1 with
      | Except.error e => Except.error e
      | Except.ok st2 => autoLoopGo O isomer Emin Tmax fuel st2

/-- `Network.autoGenerateEnergyGrains(Tmax, grainSize, Ngrains)` (network.py
lines 113-210).  After the bounded Emax-probing loop the final grid is
returned via `getEnergyGrains` whether or not the loop converged: the `done`
flag is never consulted after the loop. -/
def autoGenerateEnergyGrains (O : Oracles) (net : Network) (Tmax grainSize : ℚ)
    (Ngrains : ℤ) : Except String (List ℚ) :=
  if grainSize = 0 ∧ Ngrains = 0 then
    Except.error
      "Must provide either grainSize or Ngrains parameter to Network.determineEnergyGrains()."
  else
    match net.isomers.foldl (fun acc sp =>
        match acc with
        | none => some sp
        | some m => if m.E0 < sp.E0 then some sp else some m) none with
    | none => Except.error "AttributeError: NoneType object has no attribute E0"
    | some isomer =>
      match autoLoopGo O isomer
          ((((⌊net.isomers.foldl (fun m sp => if sp.E0 < m then sp.E0 else m)
            ((10 : ℚ) ^ 25)⌋ : ℤ) : ℚ))) Tmax 5 (50, 0, false) with
      | Except.error e => Except.error e
      | Except.ok st =>
        getEnergyGrains
          ((((⌊net.isomers.foldl (fun m sp => if sp.E0 < m then sp.E0 else m)
            ((10 : ℚ) ^ 25)⌋ : ℤ) : ℚ)))
          ((⌈st.2.1 + max (max isomer.E0
            (net.reactants.foldl (fun m ch =>
              if m < (ch.map Species.E0).sum then (ch.map Species.E0).sum else m)
              ((((⌊net.isomers.foldl (fun m sp => if sp.E0 < m then sp.E0 else m)
                ((10 : ℚ) ^ 25)⌋ : ℤ) : ℚ)))))
            (net.pathReactions.foldl (fun m r =>
              if m < r.transitionState.E0 then r.transitionState.E0 else m)
              ((((⌊net.isomers.foldl (fun m sp => if sp.E0 < m then sp.E0 else m)
                ((10 : ℚ) ^ 25)⌋ : ℤ) : ℚ)))) - isomer.E0⌉ : ℤ) : ℚ)
          grainSize Ngrains

/-- The gas constant over the reals (for the equilibrium-rescaling claims,
which involve the genuine exponential). -/
noncomputable def RgasR : ℝ := ((Rgas : ℚ) : ℝ)

/-- The Boltzmann-weighted row sum `sum(density * exp(-Elist/R/T))` over the
reals. -/
noncomputable def boltzSum (dens Elist : List ℝ) (T : ℝ) : ℝ :=
  (List.zipWith (fun d E => d * Real.exp (-E / RgasR / T)) dens Elist).sum

/-- `eqRatios[i]` of network.py line 365 over the reals. -/
noncomputable def eqRatioRowReal (dens Elist : List ℝ) (T dE : ℝ) : ℝ :=
  boltzSum dens Elist T * dE

/-- The rescaled density-of-states row of network.py line 366 over the
reals: `densStates[i,:] = densStates0[i,:] / eqRatios[i] * dE`. -/
noncomputable def rescaleRowReal (dens Elist : List ℝ) (T dE : ℝ) : List ℝ :=
  dens.map (fun d => d / eqRatioRowReal dens Elist T dE * dE)

/-- A simple total collaborator assignment for the concrete test networks:
flat densities of states, unit collision parameters, a unit exponential
model, and solver back ends returning constant matrices of the correct
shape. -/
def oracleA : Oracles where
  dos := fun _ Elist => Elist.map (fun _ => 1)
  conv := fun d0 _ _ => d0
  micro := fun _ Elist _ _ _ => (Elist.map (fun _ => 1), Elist.map (fun _ => 2))
  pyexp := fun _ => 1
  collFreq := fun _ _ _ => 1
  collEff := fun _ _ _ _ _ _ => 1
  genMat := fun Elist _ _ => Elist.map (fun _ => Elist.map (fun _ => 1))
  msc := fun _ _ _ _ _ _ _ _ _ Nisom Nreac Nprod =>
    Except.ok (List.replicate (Nisom + Nreac + Nprod)
      (List.replicate (Nisom + Nreac + Nprod) 3), [])
  rs := fun _ _ _ _ _ _ _ _ _ Nisom Nreac Nprod =>
    Except.ok (List.replicate (Nisom + Nreac + Nprod)
      (List.replicate (Nisom + Nreac + Nprod) 7), [])
  cse := fun _ _ _ _ _ _ _ _ _ Nisom Nreac Nprod =>
    Except.ok (List.replicate (Nisom + Nreac + Nprod)
      (List.replicate (Nisom + Nreac + Nprod) 9), [])

/-- Oracles for the C3 scenario: the single isomer's raw density-of-states
array is `[5, 7]`. -/
def oracleC3 : Oracles := { oracleA with dos := fun _ _ => [5, 7] }

/-- A one-isomer network for the C3 scenario. -/
def netC3 : Network := ⟨[⟨0, 0, some 0⟩], [], [], []⟩

/-- The C7/C10 concrete network: one isomer with state data and one
reactant channel whose first species has `states = None`. -/
def netC7 : Network :=
  ⟨[⟨0, 0, some 0⟩], [[⟨1, 0, none⟩, ⟨2, 0, some 1⟩]], [], []⟩

/-- Two-isomer network with a separate product channel, for the C4
witness. -/
def netC4w : Network :=
  ⟨[⟨0, 0, some 0⟩, ⟨1, 0, some 1⟩], [], [[⟨2, 0, some 2⟩, ⟨3, 0, some 3⟩]], []⟩

/-- Isomerization reaction between the two isomers of `netC4w`. -/
def rxnC4a : Reaction := ⟨[⟨0, 0, some 0⟩], [⟨1, 0, some 1⟩], ⟨5⟩⟩

/-- Irreversible dissociation from the first isomer of `netC4w` to its
product channel. -/
def rxnC4b : Reaction := ⟨[⟨0, 0, some 0⟩], [⟨2, 0, some 2⟩, ⟨3, 0, some 3⟩], ⟨5⟩⟩

/-- C4 counterexample network: the species labelled 1 is both an isomer and
the first member of the product channel. -/
def netC4c : Network :=
  ⟨[⟨0, 0, some 0⟩, ⟨1, 0, some 1⟩], [], [[⟨1, 0, some 1⟩, ⟨2, 0, some 2⟩]], []⟩

/-- Reaction from the isomer labelled 0 to the product-only channel of
`netC4c`. -/
def rxnC4c : Reaction := ⟨[⟨0, 0, some 0⟩], [⟨1, 0, some 1⟩, ⟨2, 0, some 2⟩], ⟨5⟩⟩

/-- One-isomer network for the end-to-end dispatch scenario. -/
def netC9 : Network := ⟨[⟨0, 0, some 0⟩], [], [], []⟩

/-- Path reaction between the two isomers of `netC1`, with transition-state
energy 100. -/
def rxnC1 : Reaction := ⟨[⟨0, 10, some 0⟩], [⟨1, 20, some 1⟩], ⟨100⟩⟩

/-- Two-isomer network with one path reaction, used to exhibit the energy
shift left behind by a failing call. -/
def netC1 : Network := ⟨[⟨0, 10, some 0⟩, ⟨1, 20, some 1⟩], [], [], [rxnC1]⟩

lemma headI_map_range (f : ℕ → ℚ) (n : ℕ) (h : 0 < n) :
    ((List.range n).map f).headI = f 0 := by
  obtain ⟨m, rfl⟩ := Nat.exists_eq_add_of_lt h
  rw [Nat.zero_add, List.range_succ_eq_map]
  simp

lemma getLastD_map_range (n : ℕ) (f : ℕ → ℚ) (d : ℚ) :
    ((List.range (n + 1)).map f).getLastD d = f n := by
  rw [List.range_succ, List.map_append]
  simp [List.getLastD_eq_getLast?, List.getLast?_concat]

lemma pairwise_map_range_lt (f : ℕ → ℚ) (n : ℕ) (hf : ∀ i j, i < j → f i < f j) :
    ((List.range n).map f).Pairwise (· < ·) :=
  List.Pairwise.map f hf (List.pairwise_lt_range n)

lemma affine_strict_mono (a d : ℚ) (hd : 0 < d) (i j : ℕ) (hij : i < j) :
    a + (i : ℚ) * d < a + (j : ℚ) * d := by
  have hq : (i : ℚ) < (j : ℚ) := by exact_mod_cast hij
  nlinarith

/-- Everything claim C5 needs about the spacing-based branch
`arangeQ a (b + step) step` for `a < b < b + step`. -/
lemma arangeQ_spec (a b step : ℚ) (hab : a < b) (hs : 0 < step) :
    arangeQ a (b + step) step ≠ [] ∧
    (arangeQ a (b + step) step).Pairwise (· < ·) ∧
    (arangeQ a (b + step) step).headI = a ∧
    b ≤ (arangeQ a (b + step) step).getLastD 0 := by
  have hx : (1 : ℚ) < (b + step - a) / step := by
    rw [lt_div_iff hs]
    linarith
  have hceil : (1 : ℤ) < ⌈(b + step - a) / step⌉ := by
    rw [Int.lt_ceil]
    exact_mod_cast hx
  set n := Int.toNat ⌈(b + step - a) / step⌉ with hn
  have hn2 : 2 ≤ n := by omega
  have hcast : ((n : ℤ) : ℚ) = (⌈(b + step - a) / step⌉ : ℚ) := by
    rw [hn, Int.toNat_of_nonneg (by omega)]
  have hnQ : (b + step - a) / step ≤ (n : ℚ) := by
    rw [show ((n : ℕ) : ℚ) = ((n : ℤ) : ℚ) by norm_cast, hcast]
    exact Int.le_ceil _
  obtain ⟨m, hm⟩ : ∃ m, n = m + 1 := ⟨n - 1, by omega⟩
  refine ⟨?_, ?_, ?_, ?_⟩
  · intro hnil
    have := congrArg List.length hnil
    simp [arangeQ, ← hn] at this
    omega
  · exact pairwise_map_range_lt _ _ (fun i j h => affine_strict_mono a step hs i j h)
  · have : 0 < n := by omega
    unfold arangeQ
    rw [← hn]
    rw [headI_map_range _ _ this]
    ring
  · unfold arangeQ
    rw [← hn, hm, getLastD_map_range]
    have hmQ : (b + step - a) / step - 1 ≤ (m : ℚ) := by
      have : ((m : ℚ) + 1) = (n : ℚ) := by
        rw [hm]
        push_cast
        ring
      linarith
    have : b - a ≤ (m : ℚ) * step := by
      have h2 := mul_le_mul_of_nonneg_right hmQ hs.le
      have h3 : ((b + step - a) / step - 1) * step = b - a := by
        field_simp
        ring
      linarith [h3 ▸ h2]
    linarith

/-- Everything claim C5 needs about the count-based branch
`linspaceQ a b n` for `a < b` and at least two grains. -/
lemma linspaceQ_spec (a b : ℚ) (n : ℕ) (hab : a < b) (hn : 2 ≤ n) :
    linspaceQ a b n ≠ [] ∧
    (linspaceQ a b n).Pairwise (· < ·) ∧
    (linspaceQ a b n).headI = a ∧
    (linspaceQ a b n).getLastD 0 = b := by
  have h0 : n ≠ 0 := by omega
  have h1 : n ≠ 1 := by omega
  have hd : 0 < (b - a) / ((n : ℚ) - 1) := by
    apply div_pos (by linarith)
    have : (2 : ℚ) ≤ (n : ℚ) := by exact_mod_cast hn
    linarith
  obtain ⟨m, hm⟩ : ∃ m, n = m + 1 := ⟨n - 1, by omega⟩
  have hne : ((n : ℚ) - 1) ≠ 0 := by
    have : (2 : ℚ) ≤ (n : ℚ) := by exact_mod_cast hn
    intro h
    linarith
  refine ⟨?_, ?_, ?_, ?_⟩
  · intro hnil
    have := congrArg List.length hnil
    simp [linspaceQ, h0, h1] at this
  · unfold linspaceQ
    rw [if_neg h0, if_neg h1]
    exact pairwise_map_range_lt _ _ (fun i j h => affine_strict_mono a _ hd i j h)
  · unfold linspaceQ
    rw [if_neg h0, if_neg h1]
    rw [headI_map_range _ _ (by omega)]
    ring
  · unfold linspaceQ
    rw [if_neg h0, if_neg h1, hm, getLastD_map_range]
    have hm1 : 1 ≤ m := by omega
    have hc : (((m + 1 : ℕ)) : ℚ) - 1 = (m : ℚ) := by
      push_cast
      ring
    rw [hc]
    have hmne : (m : ℚ) ≠ 0 := by
      have : (1 : ℚ) ≤ (m : ℚ) := by exact_mod_cast hm1
      linarith
    field_simp

lemma grainsExample11 :
    getEnergyGrains 0 100 10 5 =
      Except.ok [0, 10, 20, 30, 40, 50, 60, 70, 80, 90, 100] := by
  have hbr : getEnergyGrains 0 100 10 5 = Except.ok (arangeQ 0 (100 + 10) 10) := by
    unfold getEnergyGrains
    norm_num
  rw [hbr]
  have h1 : ((100 : ℚ) + 10 - 0) / 10 = ((11 : ℤ) : ℚ) := by norm_num
  unfold arangeQ
  rw [h1, Int.ceil_intCast]
  have h2 : List.range (Int.toNat 11) = [0, 1, 2, 3, 4, 5, 6, 7, 8, 9, 10] := by decide
  rw [h2]
  norm_num


/-- C5: for `Emin < Emax` with at least one of the spacing and the grain
count positive — and excluding the degenerate count `Ngrains = 1`, which the
counterexample shows falsifies the claim as stated — `getEnergyGrains`
returns a strictly ascending grid that starts at `Emin` and ends at or above
`Emax`; when both parameters are positive the spacing-based grid is used
exactly when `(Emax - Emin)/(Ngrains - 1) > dE`, and the concrete input
`(Emin, Emax, dE, Ngrains) = (0, 100, 10, 5)` yields the 11-point
spacing-based grid. -/
theorem C5_getEnergyGrains_spec (Emin Emax dE : ℚ) (Ngrains : ℤ)
    (hlt : Emin < Emax) (hpos : 0 < dE ∨ 0 < Ngrains) (hne1 : Ngrains ≠ 1) :
    ∃ l, getEnergyGrains Emin Emax dE Ngrains = Except.ok l ∧ l ≠ [] ∧
      l.Pairwise (· < ·) ∧ l.headI = Emin ∧ Emax ≤ l.getLastD 0 ∧
      (0 < dE → 0 < Ngrains →
        (dE < (Emax - Emin) / ((Ngrains : ℚ) - 1) → l = arangeQ Emin (Emax + dE) dE) ∧
        ((Emax - Emin) / ((Ngrains : ℚ) - 1) ≤ dE →
          l = linspaceQ Emin Emax Ngrains.toNat)) ∧
      getEnergyGrains 0 100 10 5 =
        Except.ok [0, 10, 20, 30, 40, 50, 60, 70, 80, 90, 100] := by
  by_cases hdE : 0 < dE
  · by_cases hN : 0 < Ngrains
    · have hN2n : 2 ≤ Ngrains.toNat := by omega
      by_cases hcmp : dE < (Emax - Emin) / ((Ngrains : ℚ) - 1)
      · obtain ⟨h1, h2, h3, h4⟩ := arangeQ_spec Emin Emax dE hlt hdE
        refine ⟨arangeQ Emin (Emax + dE) dE, ?_, h1, h2, h3, h4, ?_, grainsExample11⟩
        · unfold getEnergyGrains
          rw [if_neg (by intro h; exact absurd h.2 (not_le.mpr hdE)),
            if_neg (by intro h; exact absurd hN (not_lt.mpr h.1)),
            if_neg (by intro h; exact absurd h.2 (not_le.mpr hdE)),
            if_neg hne1, if_pos hcmp]
        · exact fun _ _ => ⟨fun _ => rfl, fun h => absurd hcmp (not_lt.mpr h)⟩
      · obtain ⟨h1, h2, h3, h4⟩ := linspaceQ_spec Emin Emax Ngrains.toNat hlt hN2n
        refine ⟨linspaceQ Emin Emax Ngrains.toNat, ?_, h1, h2, h3, h4.ge, ?_,
          grainsExample11⟩
        · unfold getEnergyGrains
          rw [if_neg (by intro h; exact absurd h.2 (not_le.mpr hdE)),
            if_neg (by intro h; exact absurd hN (not_lt.mpr h.1)),
            if_neg (by intro h; exact absurd h.2 (not_le.mpr hdE)),
            if_neg hne1, if_neg hcmp]
        · exact fun _ _ => ⟨fun h => absurd h hcmp, fun _ => rfl⟩
    · obtain ⟨h1, h2, h3, h4⟩ := arangeQ_spec Emin Emax dE hlt hdE
      refine ⟨arangeQ Emin (Emax + dE) dE, ?_, h1, h2, h3, h4,
        fun _ hN2 => absurd hN2 hN, grainsExample11⟩
      unfold getEnergyGrains
      rw [if_neg (by intro h; exact absurd h.2 (not_le.mpr hdE)),
        if_pos ⟨not_lt.mp hN, hdE⟩]
  · have hN : 0 < Ngrains := hpos.resolve_left hdE
    have hN2n : 2 ≤ Ngrains.toNat := by omega
    obtain ⟨h1, h2, h3, h4⟩ := linspaceQ_spec Emin Emax Ngrains.toNat hlt hN2n
    refine ⟨linspaceQ Emin Emax Ngrains.toNat, ?_, h1, h2, h3, h4.ge,
      fun hdE2 => absurd hdE2 hdE, grainsExample11⟩
    unfold getEnergyGrains
    rw [if_neg (by intro h; exact absurd hN (not_lt.mpr h.1)),
      if_neg (by intro h; exact absurd h.2 hdE),
      if_pos ⟨hN, not_lt.mp hdE⟩]

/-- C5 witness: the amended statement instantiated at
`(Emin, Emax, dE, Ngrains) = (0, 100, 10, 5)`. -/
theorem C5_getEnergyGrains_spec_witness :
    ∃ l, getEnergyGrains 0 100 10 5 = Except.ok l ∧ l ≠ [] ∧
      l.Pairwise (· < ·) ∧ l.headI = 0 ∧ 100 ≤ l.getLastD 0 ∧
      (0 < (10 : ℚ) → 0 < (5 : ℤ) →
        ((10 : ℚ) < (100 - 0) / ((5 : ℚ) - 1) → l = arangeQ 0 (100 + 10) 10) ∧
        ((100 - 0) / ((5 : ℚ) - 1) ≤ (10 : ℚ) → l = linspaceQ 0 100 (5 : ℤ).toNat)) ∧
      getEnergyGrains 0 100 10 5 =
        Except.ok [0, 10, 20, 30, 40, 50, 60, 70, 80, 90, 100] :=
  C5_getEnergyGrains_spec 0 100 10 5 (by norm_num) (Or.inl (by norm_num)) (by omega)

/-- C5 counterexample: at `(Emin, Emax, dE, Ngrains) = (0, 100, 0, 1)` the
count is positive but the returned grid `[0]` ends below `Emax = 100`, so
the claim as stated (grid ends at a value at or above `Emax`) is false. -/
theorem C5_getEnergyGrains_counterexample :
    getEnergyGrains 0 100 0 1 = Except.ok [(0 : ℚ)] ∧
      ¬ (100 ≤ ([(0 : ℚ)] : List ℚ).getLastD 0) := by
  constructor
  · unfold getEnergyGrains
    rw [if_neg (by intro h; omega), if_neg (by intro h; omega),
      if_pos ⟨by omega, le_rfl⟩]
    norm_num [linspaceQ]
  · norm_num

/-- C8: `getEnergyGrains` with neither the spacing nor the grain count
positive fails with the descriptive `NetworkError` and returns no grid. -/
theorem C8_getEnergyGrains_neither_positive (Emin Emax dE : ℚ) (Ngrains : ℤ)
    (hd : dE ≤ 0) (hn : Ngrains ≤ 0) :
    getEnergyGrains Emin Emax dE Ngrains =
      Except.error "You must specify a positive value for either dE or Ngrains." := by
  unfold getEnergyGrains
  rw [if_pos ⟨hn, hd⟩]

/-- C8 witness: the configuration error at the concrete input
`(0, 100, 0, 0)`. -/
theorem C8_getEnergyGrains_neither_positive_witness :
    getEnergyGrains 0 100 0 0 =
      Except.error "You must specify a positive value for either dE or Ngrains." :=
  C8_getEnergyGrains_neither_positive 0 100 0 0 le_rfl le_rfl

lemma boltz_rescale_sum (dens Elist : List ℝ) (T Q dE : ℝ) :
    (List.zipWith (fun d E => d / Q * dE * Real.exp (-E / RgasR / T)) dens Elist).sum
      = dE / Q * boltzSum dens Elist T := by
  induction dens generalizing Elist with
  | nil => simp [boltzSum]
  | cons a t ih =>
    cases Elist with
    | nil => simp [boltzSum]
    | cons b t2 =>
      have ih2 := ih t2
      unfold boltzSum at ih2 ⊢
      simp only [List.zipWith_cons_cons, List.sum_cons]
      rw [ih2]
      ring

lemma eqRatioRowRealExample : eqRatioRowReal [1, 0] [0, 2] 1 2 = 2 := by
  unfold eqRatioRowReal boltzSum
  simp only [List.zipWith_cons_cons, List.zipWith_nil_right, List.sum_cons,
    List.sum_nil]
  rw [show -(0 : ℝ) / RgasR / 1 = 0 by norm_num]
  rw [Real.exp_zero]
  ring

lemma rescaleRowRealExample : rescaleRowReal [1, 0] [0, 2] 1 2 = [1, 0] := by
  unfold rescaleRowReal
  rw [eqRatioRowRealExample]
  norm_num

lemma boltzSumExample : boltzSum [1, 0] [0, 2] 1 = 1 := by
  unfold boltzSum
  simp only [List.zipWith_cons_cons, List.zipWith_nil_right, List.sum_cons,
    List.sum_nil]
  rw [show -(0 : ℝ) / RgasR / 1 = 0 by norm_num]
  rw [Real.exp_zero]
  ring

/-- C2 (amended): after the per-temperature rescaling of line 366, every row
with a nonzero Boltzmann-weighted sum satisfies
`sum(density[i,:] * exp(-Elist/R/T)) = 1` — without a further factor of
`dE`, which is already absorbed by the rescaling (the claim's extra `* dE`
makes the expression equal `dE`, not 1; see the counterexample). -/
theorem C2_rescaled_row_normalized (dens Elist : List ℝ) (T dE : ℝ)
    (h : eqRatioRowReal dens Elist T dE ≠ 0) :
    boltzSum (rescaleRowReal dens Elist T dE) Elist T = 1 := by
  have hS : boltzSum dens Elist T ≠ 0 := by
    intro h0
    exact h (by simp [eqRatioRowReal, h0])
  have hdE : dE ≠ 0 := by
    intro h0
    exact h (by simp [eqRatioRowReal, h0])
  unfold rescaleRowReal
  unfold boltzSum
  rw [List.zipWith_map_left]
  have hsum := boltz_rescale_sum dens Elist T (eqRatioRowReal dens Elist T dE) dE
  unfold boltzSum at hsum
  rw [show (fun (a : ℝ) (b : ℝ) =>
      (fun d => d / eqRatioRowReal dens Elist T dE * dE) a * Real.exp (-b / RgasR / T)) =
      (fun (d E : ℝ) =>
        d / eqRatioRowReal dens Elist T dE * dE * Real.exp (-E / RgasR / T)) from rfl]
  rw [hsum]
  rw [show (List.zipWith (fun (d E : ℝ) => d * Real.exp (-E / RgasR / T)) dens Elist).sum =
    boltzSum dens Elist T from rfl]
  rw [eqRatioRowReal]
  field_simp
  ring

/-- C2 witness: the amended normalization at the concrete row
`dens0 = [1,0]`, grid `[0,2]`, `T = 1`, `dE = 2`. -/
theorem C2_rescaled_row_normalized_witness :
    eqRatioRowReal [1, 0] [0, 2] 1 2 ≠ 0 ∧
      boltzSum (rescaleRowReal [1, 0] [0, 2] 1 2) [0, 2] 1 = 1 :=
  ⟨by rw [eqRatioRowRealExample]; norm_num,
   C2_rescaled_row_normalized [1, 0] [0, 2] 1 2
     (by rw [eqRatioRowRealExample]; norm_num)⟩

/-- C2 counterexample: at the row `dens0 = [1,0]`, grid `[0,2]`, `T = 1`,
`dE = 2`, the claimed quantity `sum(density * exp(-Elist/R/T)) * dE` equals
`dE = 2`, not 1. -/
theorem C2_counterexample :
    ¬ (boltzSum (rescaleRowReal [1, 0] [0, 2] 1 2) [0, 2] 1 * 2 = 1) := by
  rw [rescaleRowRealExample, boltzSumExample]
  norm_num

@[simp] lemma except_ok_bind (a : α) (f : α → Except String β) :
    (Except.ok a >>= f : Except String β) = f a := rfl

@[simp] lemma except_error_bind (e : String) (f : α → Except String β) :
    (Except.error e >>= f : Except String β) = Except.error e := rfl

@[simp] lemma except_pure_eq (a : α) : (pure a : Except String α) = Except.ok a := rfl


lemma pyIdx_ok (l : List α) (i : ℕ) (a : α) (h : l.get? i = some a) :
    pyIdx l i = Except.ok a := by
  unfold pyIdx
  rw [h]

lemma mapME_enumFrom_ok {α β : Type} (f : ℕ × α → Except String β) :
    ∀ (l : List α) (n : ℕ) (L : List β), mapME f (l.enumFrom n) = Except.ok L →
      L.length = l.length ∧
      ∀ i a, l.get? i = some a → ∃ b, f (n + i, a) = Except.ok b ∧ L.get? i = some b := by
  intro l
  induction l with
  | nil =>
    intro n L h
    simp [mapME] at h
    subst h
    refine ⟨rfl, ?_⟩
    intro i a ha
    simp at ha
  | cons a t ih =>
    intro n L h
    rw [show (a :: t).enumFrom n = (n, a) :: t.enumFrom (n + 1) from rfl, mapME] at h
    cases hfa : f (n, a) with
    | error e => rw [hfa] at h; simp at h
    | ok b =>
      rw [hfa] at h
      cases hrest : mapME f (t.enumFrom (n + 1)) with
      | error e => rw [hrest] at h; simp at h
      | ok bs =>
        rw [hrest] at h
        simp at h
        subst h
        obtain ⟨hlen, hidx⟩ := ih (n + 1) bs hrest
        refine ⟨by simp [hlen], ?_⟩
        intro i x hx
        cases i with
        | zero =>
          rw [List.get?_cons_zero] at hx
          injection hx with hx
          subst hx
          exact ⟨b, by simpa using hfa, rfl⟩
        | succ j =>
          rw [List.get?_cons_succ] at hx
          obtain ⟨c, hc1, hc2⟩ := hidx j x hx
          refine ⟨c, ?_, ?_⟩
          · rw [show n + (j + 1) = n + 1 + j by omega]
            exact hc1
          · rw [List.get?_cons_succ]
            exact hc2

/-- Extract one isomer row from a successful `calculateDensitiesOfStates`
run: row `i` of the result is exactly the output of `isomerRow` for isomer
`i`. -/
lemma calcDOS_isomer_row (O : Oracles) (net : Network) (Elist E0 : List ℚ)
    (D : List (List ℚ)) (e1 e0g : ℚ) (i : ℕ) (sp : Species) (e : ℚ)
    (h1 : Elist.get? 1 = some e1) (h0 : Elist.get? 0 = some e0g)
    (hiso : net.isomers.get? i = some sp) (hE : E0.get? i = some e)
    (h : calculateDensitiesOfStates O net Elist E0 = Except.ok D) :
    ∃ row, isomerRow O Elist (e1 - e0g) sp e = Except.ok row ∧
      D.get? i = some row := by
  unfold calculateDensitiesOfStates at h
  rw [pyIdx_ok Elist 1 e1 h1] at h
  simp only [] at h
  rw [pyIdx_ok Elist 0 e0g h0] at h
  simp only [] at h
  cases hIso : mapME (fun p =>
      match pyIdx E0 p.1 with
      | Except.error err => Except.error err
      | Except.ok e => isomerRow O Elist (e1 - e0g) p.2 e) net.isomers.enum with
  | error e2 => rw [hIso] at h; simp at h
  | ok isoRows =>
    rw [hIso] at h
    simp only [] at h
    cases hReac : mapME (fun p =>
        match pyIdx E0 (p.1 + net.isomers.length) with
        | Except.error err => Except.error err
        | Except.ok e => reactantRow O Elist (e1 - e0g) p.2 e) net.reactants.enum with
    | error e2 => rw [hReac] at h; simp at h
    | ok reacRows =>
      rw [hReac] at h
      simp only [] at h
      injection h with h
      subst h
      rw [show net.isomers.enum = net.isomers.enumFrom 0 from rfl] at hIso
      obtain ⟨hlen, hidx⟩ := mapME_enumFrom_ok _ _ _ _ hIso
      obtain ⟨row, hrow, hget⟩ := hidx i sp hiso
      rw [show (0 + i) = i by omega] at hrow
      rw [pyIdx_ok E0 i e hE] at hrow
      simp only [] at hrow
      refine ⟨row, hrow, ?_⟩
      rw [List.get?_append]
      · exact hget
      · rw [hlen]
        exact (List.get?_eq_some.mp hiso).1

/-- Extract one reactant-channel row from a successful
`calculateDensitiesOfStates` run: row `Nisom + n` of the result is exactly
the output of `reactantRow` for channel `n`. -/
lemma calcDOS_reactant_row (O : Oracles) (net : Network) (Elist E0 : List ℚ)
    (D : List (List ℚ)) (e1 e0g : ℚ) (n : ℕ) (ch : List Species) (e : ℚ)
    (h1 : Elist.get? 1 = some e1) (h0 : Elist.get? 0 = some e0g)
    (hch : net.reactants.get? n = some ch)
    (hE : E0.get? (n + net.isomers.length) = some e)
    (h : calculateDensitiesOfStates O net Elist E0 = Except.ok D) :
    ∃ row, reactantRow O Elist (e1 - e0g) ch e = Except.ok row ∧
      D.get? (net.isomers.length + n) = some row := by
  unfold calculateDensitiesOfStates at h
  rw [pyIdx_ok Elist 1 e1 h1] at h
  simp only [] at h
  rw [pyIdx_ok Elist 0 e0g h0] at h
  simp only [] at h
  cases hIso : mapME (fun p =>
      match pyIdx E0 p.1 with
      | Except.error err => Except.error err
      | Except.ok e => isomerRow O Elist (e1 - e0g) p.2 e) net.isomers.enum with
  | error e2 => rw [hIso] at h; simp at h
  | ok isoRows =>
    rw [hIso] at h
    simp only [] at h
    cases hReac : mapME (fun p =>
        match pyIdx E0 (p.1 + net.isomers.length) with
        | Except.error err => Except.error err
        | Except.ok e => reactantRow O Elist (e1 - e0g) p.2 e) net.reactants.enum with
    | error e2 => rw [hReac] at h; simp at h
    | ok reacRows =>
      rw [hReac] at h
      simp only [] at h
      injection h with h
      subst h
      rw [show net.isomers.enum = net.isomers.enumFrom 0 from rfl] at hIso
      obtain ⟨hlenI, _⟩ := mapME_enumFrom_ok _ _ _ _ hIso
      rw [show net.reactants.enum = net.reactants.enumFrom 0 from rfl] at hReac
      obtain ⟨hlenR, hidxR⟩ := mapME_enumFrom_ok _ _ _ _ hReac
      obtain ⟨row, hrow, hget⟩ := hidxR n ch hch
      rw [show (0 + n) = n by omega] at hrow
      rw [pyIdx_ok E0 (n + net.isomers.length) e hE] at hrow
      simp only [] at hrow
      refine ⟨row, hrow, ?_⟩
      rw [List.get?_append_right (by omega)]
      rw [show net.isomers.length + n - isoRows.length = n by omega]
      exact hget

lemma reactantRow_skip (O : Oracles) (Elist : List ℚ) (dE : ℚ) (ch : List Species)
    (e : ℚ) (s0 s1 : Species) (h0 : ch.get? 0 = some s0) (h1 : ch.get? 1 = some s1)
    (hmiss : s0.states = none ∨ s1.states = none) :
    reactantRow O Elist dE ch e = Except.ok (List.replicate Elist.length 0) := by
  unfold reactantRow
  rw [h0]
  simp only []
  rcases hmiss with hm | hm
  · rw [hm]
  · cases hs0 : s0.states with
    | none => simp only []
    | some sid0 =>
      simp only []
      rw [h1]
      simp only []
      rw [hm]

lemma pyRound_nonneg (q : ℚ) (h : 0 ≤ q) : 0 ≤ pyRound q := by
  unfold pyRound
  rw [if_pos h]
  exact Int.floor_nonneg.mpr (by linarith)

lemma isomerRow_shift_form (O : Oracles) (Elist : List ℚ) (dE : ℚ) (sp : Species)
    (sid : ℕ) (e : ℚ) (row : List ℚ)
    (hst : sp.states = some sid)
    (hlen : (O.dos sid Elist).length = Elist.length)
    (hr0 : 0 ≤ pyRound (e / dE))
    (hcase : (pyRound (e / dE)).toNat ≤ Elist.length)
    (h : isomerRow O Elist dE sp e = Except.ok row) :
    row = List.replicate (pyRound (e / dE)).toNat 0 ++
      (O.dos sid Elist).take (Elist.length - (pyRound (e / dE)).toNat) := by
  unfold isomerRow at h
  rw [hst] at h
  simp only [] at h
  unfold pySliceAssign pySliceTo pyStart pyStop at h
  rw [hlen] at h
  rw [if_pos hr0, if_pos (show (0 : ℤ) ≤ (Elist.length : ℤ) - pyRound (e / dE) by omega)]
    at h
  rw [show ((Elist.length : ℤ) - pyRound (e / dE)).toNat =
    Elist.length - (pyRound (e / dE)).toNat by omega] at h
  simp only [List.length_replicate, List.length_take, hlen] at h
  rw [show min (Elist.length - (pyRound (e / dE)).toNat) Elist.length =
    Elist.length - (pyRound (e / dE)).toNat by omega] at h
  rw [show min (pyRound (e / dE)).toNat Elist.length = (pyRound (e / dE)).toNat
    by omega] at h
  rw [if_pos (by omega)] at h
  injection h with h
  rw [← h]
  rw [List.take_replicate]
  rw [show min (pyRound (e / dE)).toNat Elist.length = (pyRound (e / dE)).toNat
    by omega]

lemma isomerRow_shift_big (O : Oracles) (Elist : List ℚ) (dE : ℚ) (sp : Species)
    (sid : ℕ) (e : ℚ) (row : List ℚ)
    (hst : sp.states = some sid)
    (hlen : (O.dos sid Elist).length = Elist.length)
    (hr0 : 0 ≤ pyRound (e / dE))
    (hcase : Elist.length < (pyRound (e / dE)).toNat)
    (h : isomerRow O Elist dE sp e = Except.ok row) :
    row = List.replicate Elist.length 0 := by
  unfold isomerRow at h
  rw [hst] at h
  simp only [] at h
  unfold pySliceAssign pySliceTo pyStart pyStop at h
  rw [hlen] at h
  rw [if_pos hr0, if_neg (show ¬ (0 : ℤ) ≤ (Elist.length : ℤ) - pyRound (e / dE)
    by omega)] at h
  simp only [List.length_replicate] at h
  rw [show min (pyRound (e / dE)).toNat Elist.length = Elist.length by omega] at h
  rw [show Elist.length - Elist.length = 0 by omega] at h
  by_cases hc : ((O.dos sid Elist).take (Elist.length -
      min ((Elist.length : ℤ) - pyRound (e / dE)).natAbs Elist.length)).length = 0
  · rw [if_pos hc] at h
    injection h with h
    rw [← h]
    rw [List.length_eq_zero.mp hc]
    simp
  · rw [if_neg hc] at h
    simp at h

lemma getD_append_left (l1 l2 : List ℚ) (j : ℕ) (h : j < l1.length) (d : ℚ) :
    (l1 ++ l2).getD j d = l1.getD j d := by
  rw [List.getD_eq_getD_get?, List.getD_eq_getD_get?, List.get?_append h]

lemma getD_append_offset (l1 l2 : List ℚ) (k : ℕ) (d : ℚ) :
    (l1 ++ l2).getD (l1.length + k) d = l2.getD k d := by
  rw [List.getD_eq_getD_get?, List.getD_eq_getD_get?,
    List.get?_append_right (by omega)]
  rw [show l1.length + k - l1.length = k by omega]

lemma getD_replicate_zero (n j : ℕ) : (List.replicate n (0 : ℚ)).getD j 0 = 0 := by
  rw [List.getD_eq_getD_get?]
  cases h : (List.replicate n (0 : ℚ)).get? j with
  | none => rfl
  | some a =>
    have := List.eq_of_mem_replicate (List.get?_mem h)
    simp [this]

lemma getD_take (l : List ℚ) (n k : ℕ) (h : k < n) (d : ℚ) :
    (l.take n).getD k d = l.getD k d := by
  rw [List.getD_eq_getD_get?, List.getD_eq_getD_get?, List.get?_take h]

/-- C3 (amended): the assembler places isomer `i`'s raw density-of-states
array into row `i` shifted right by `r0 = round(E0[i]/dE)` cells — entries
below index `r0` are zero and entry `r0 + k` equals raw entry `k` whenever
`r0 + k` is inside the grid — and the truncated portion of the raw array is
its high-energy tail (entries `k` with `r0 + k` at or beyond the grid
length, which have no cell in the row), not the part that would fall below
grid index 0 as the claim (quoting the spec) states; see the
counterexample. -/
theorem C3_isomer_row_shift (O : Oracles) (net : Network) (Elist E0 : List ℚ)
    (D : List (List ℚ)) (e1 e0g : ℚ) (i : ℕ) (sp : Species) (sid : ℕ) (e : ℚ)
    (h1 : Elist.get? 1 = some e1) (h0 : Elist.get? 0 = some e0g)
    (hiso : net.isomers.get? i = some sp) (hst : sp.states = some sid)
    (hE : E0.get? i = some e) (he : 0 ≤ e) (hdE : 0 < e1 - e0g)
    (hlen : (O.dos sid Elist).length = Elist.length)
    (h : calculateDensitiesOfStates O net Elist E0 = Except.ok D) :
    ∃ row, D.get? i = some row ∧ row.length = Elist.length ∧
      (∀ j, j < (pyRound (e / (e1 - e0g))).toNat → j < Elist.length →
        row.getD j 0 = 0) ∧
      (∀ k, (pyRound (e / (e1 - e0g))).toNat + k < Elist.length →
        row.getD ((pyRound (e / (e1 - e0g))).toNat + k) 0 =
          (O.dos sid Elist).getD k 0) ∧
      (∀ k, Elist.length ≤ (pyRound (e / (e1 - e0g))).toNat + k →
        ¬ ((pyRound (e / (e1 - e0g))).toNat + k < row.length)) := by
  obtain ⟨row, hrow, hget⟩ := calcDOS_isomer_row O net Elist E0 D e1 e0g i sp e
    h1 h0 hiso hE h
  have hr0 : 0 ≤ pyRound (e / (e1 - e0g)) :=
    pyRound_nonneg _ (div_nonneg he hdE.le)
  by_cases hcase : (pyRound (e / (e1 - e0g))).toNat ≤ Elist.length
  · have hform := isomerRow_shift_form O Elist (e1 - e0g) sp sid e row hst hlen hr0
      hcase hrow
    have hL : row.length = Elist.length := by
      rw [hform]
      simp [hlen]
      omega
    refine ⟨row, hget, hL, ?_, ?_, ?_⟩
    · intro j hj hjN
      rw [hform]
      rw [getD_append_left _ _ _ (by simp; omega)]
      exact getD_replicate_zero _ _
    · intro k hk
      rw [hform]
      rw [show (pyRound (e / (e1 - e0g))).toNat + k =
        (List.replicate (pyRound (e / (e1 - e0g))).toNat (0 : ℚ)).length + k by simp]
      rw [getD_append_offset]
      exact getD_take _ _ _ (by omega) _
    · intro k hk
      rw [hL]
      omega
  · have hform := isomerRow_shift_big O Elist (e1 - e0g) sp sid e row hst hlen hr0
      (by omega) hrow
    have hL : row.length = Elist.length := by
      rw [hform]
      simp
    refine ⟨row, hget, hL, ?_, ?_, ?_⟩
    · intro j hj hjN
      rw [hform]
      exact getD_replicate_zero _ _
    · intro k hk
      omega
    · intro k hk
      rw [hL]
      omega

lemma pyRound_one : pyRound 1 = 1 := by
  unfold pyRound
  rw [if_pos (by norm_num)]
  rw [show (1 : ℚ) + 1 / 2 = 3 / 2 by norm_num]
  rw [Int.floor_eq_iff]
  constructor
  · norm_num
  · norm_num

lemma isomerRowC3 : isomerRow oracleC3 [0, 1] (1 - 0) ⟨0, 0, some 0⟩ 1 =
    Except.ok [0, 5] := by
  unfold isomerRow
  simp only []
  rw [show oracleC3.dos 0 [0, 1] = [5, 7] from rfl]
  rw [show (1 : ℚ) / (1 - 0) = 1 by norm_num, pyRound_one]
  rfl

lemma calcDOS_C3 : calculateDensitiesOfStates oracleC3 netC3 [0, 1] [1] =
    Except.ok [[0, 5]] := by
  unfold calculateDensitiesOfStates
  rw [pyIdx_ok [(0 : ℚ), 1] 1 1 rfl]
  simp only []
  rw [pyIdx_ok [(0 : ℚ), 1] 0 0 rfl]
  simp only []
  rw [show netC3.isomers.enum = [(0, (⟨0, 0, some 0⟩ : Species))] from rfl]
  rw [show netC3.reactants.enum = ([] : List (ℕ × List Species)) from rfl]
  rw [mapME, mapME]
  simp only [except_ok_bind, except_pure_eq]
  rw [pyIdx_ok [(1 : ℚ)] 0 1 rfl]
  simp only []
  rw [isomerRowC3]
  rfl

/-- C3 witness: the amended shift statement instantiated on a one-isomer
network with raw densities `[5, 7]`, grid `[0, 1]` (`dE = 1`) and
`E0[0] = 1`, so `r0 = 1` and the assembled row is `[0, 5]`. -/
theorem C3_isomer_row_shift_witness :
    ∃ row, ([[0, 5]] : List (List ℚ)).get? 0 = some row ∧
      row.length = ([0, 1] : List ℚ).length ∧
      (∀ j, j < (pyRound ((1 : ℚ) / (1 - 0))).toNat → j < ([0, 1] : List ℚ).length →
        row.getD j 0 = 0) ∧
      (∀ k, (pyRound ((1 : ℚ) / (1 - 0))).toNat + k < ([0, 1] : List ℚ).length →
        row.getD ((pyRound ((1 : ℚ) / (1 - 0))).toNat + k) 0 =
          (oracleC3.dos 0 [0, 1]).getD k 0) ∧
      (∀ k, ([0, 1] : List ℚ).length ≤ (pyRound ((1 : ℚ) / (1 - 0))).toNat + k →
        ¬ ((pyRound ((1 : ℚ) / (1 - 0))).toNat + k < row.length)) :=
  C3_isomer_row_shift oracleC3 netC3 [0, 1] [1] [[0, 5]] 1 0 0 ⟨0, 0, some 0⟩ 0 1
    rfl rfl rfl rfl rfl (by norm_num) (by norm_num) rfl calcDOS_C3

/-- C3 counterexample: on the same concrete network (`r0 = 1`, grid length
2, raw array `[5, 7]`), the claim's reading of the truncation — only raw
entries that would fall below grid index 0 are dropped, so every raw entry
`k` (all have `r0 + k ≥ 0`) keeps a cell at index `r0 + k` — fails: raw
entry 1 would land at index 2, beyond the top of the grid, and is dropped
there (high-side truncation), not below index 0. -/
theorem C3_counterexample :
    calculateDensitiesOfStates oracleC3 netC3 [0, 1] [1] = Except.ok [[0, 5]] ∧
    pyRound ((1 : ℚ) / (1 - 0)) = 1 ∧
    ¬ (∀ k : ℕ, k < 2 → 1 + k < 2 ∧
        (([0, 5] : List ℚ).getD (1 + k) 0 = (oracleC3.dos 0 [0, 1]).getD k 0)) := by
  refine ⟨calcDOS_C3, ?_, ?_⟩
  · rw [show (1 : ℚ) / (1 - 0) = 1 by norm_num]
    exact pyRound_one
  · intro hcl
    have := (hcl 1 (by omega)).1
    omega

/-- C7: for a reactant channel either of whose two constituent species lacks
state-counting data, the assembler raises no error — the channel's own row
computation returns the all-zero row (the channel is silently skipped), and
on a successful run the returned tensor holds that all-zero row at the
channel's index. -/
theorem C7_missing_states_channel_zero_row (O : Oracles) (net : Network)
    (Elist E0 : List ℚ) (D : List (List ℚ)) (e1 e0g e : ℚ) (n : ℕ)
    (ch : List Species) (s0 s1 : Species)
    (h1 : Elist.get? 1 = some e1) (h0 : Elist.get? 0 = some e0g)
    (hch : net.reactants.get? n = some ch)
    (hs0 : ch.get? 0 = some s0) (hs1 : ch.get? 1 = some s1)
    (hmiss : s0.states = none ∨ s1.states = none)
    (hE : E0.get? (n + net.isomers.length) = some e)
    (h : calculateDensitiesOfStates O net Elist E0 = Except.ok D) :
    reactantRow O Elist (e1 - e0g) ch e =
      Except.ok (List.replicate Elist.length 0) ∧
    D.get? (net.isomers.length + n) = some (List.replicate Elist.length 0) := by
  have hskip := reactantRow_skip O Elist (e1 - e0g) ch e s0 s1 hs0 hs1 hmiss
  obtain ⟨row, hrow, hget⟩ := calcDOS_reactant_row O net Elist E0 D e1 e0g n ch e
    h1 h0 hch hE h
  rw [hskip] at hrow
  injection hrow with hrow
  exact ⟨hskip, hrow ▸ hget⟩

lemma pyRound_zero : pyRound 0 = 0 := by
  unfold pyRound
  rw [if_pos le_rfl]
  rw [show (0 : ℚ) + 1 / 2 = 1 / 2 by norm_num]
  rw [Int.floor_eq_iff]
  constructor
  · norm_num
  · norm_num

lemma isomerRowC7 : isomerRow oracleA [0, 1] (1 - 0) ⟨0, 0, some 0⟩ 0 =
    Except.ok [1, 1] := by
  unfold isomerRow
  simp only []
  rw [show oracleA.dos 0 [0, 1] = [1, 1] from rfl]
  rw [show (0 : ℚ) / (1 - 0) = 0 by norm_num, pyRound_zero]
  rfl

lemma calcDOS_C7 : calculateDensitiesOfStates oracleA netC7 [0, 1] [0, 0] =
    Except.ok [[1, 1], [0, 0]] := by
  unfold calculateDensitiesOfStates
  rw [pyIdx_ok [(0 : ℚ), 1] 1 1 rfl]
  simp only []
  rw [pyIdx_ok [(0 : ℚ), 1] 0 0 rfl]
  simp only []
  rw [show netC7.isomers.enum = [(0, (⟨0, 0, some 0⟩ : Species))] from rfl]
  rw [show netC7.reactants.enum =
    [(0, [(⟨1, 0, none⟩ : Species), ⟨2, 0, some 1⟩])] from rfl]
  rw [mapME, mapME, mapME, mapME]
  simp only [except_ok_bind, except_pure_eq]
  rw [pyIdx_ok [(0 : ℚ), 0] 0 0 rfl]
  simp only []
  rw [isomerRowC7]
  simp only [except_ok_bind, except_pure_eq]
  rw [pyIdx_ok [(0 : ℚ), 0] (0 + netC7.isomers.length) 0 rfl]
  simp only []
  rw [reactantRow_skip oracleA [0, 1] (1 - 0) [⟨1, 0, none⟩, ⟨2, 0, some 1⟩] 0
    ⟨1, 0, none⟩ ⟨2, 0, some 1⟩ rfl rfl (Or.inl rfl)]
  rfl

/-- C7 witness: the silently-skipped channel on the concrete one-isomer,
one-channel network. -/
theorem C7_missing_states_channel_zero_row_witness :
    reactantRow oracleA [0, 1] (1 - 0) [⟨1, 0, none⟩, ⟨2, 0, some 1⟩] 0 =
      Except.ok (List.replicate ([0, 1] : List ℚ).length 0) ∧
    ([[1, 1], [0, 0]] : List (List ℚ)).get? (netC7.isomers.length + 0) =
      some (List.replicate ([0, 1] : List ℚ).length 0) :=
  C7_missing_states_channel_zero_row oracleA netC7 [0, 1] [0, 0]
    [[1, 1], [0, 0]] 1 0 0 0 [⟨1, 0, none⟩, ⟨2, 0, some 1⟩] ⟨1, 0, none⟩
    ⟨2, 0, some 1⟩ rfl rfl rfl rfl rfl (Or.inl rfl) rfl calcDOS_C7

lemma eqRatioRow_zero_row (w : List ℚ) (dE : ℚ) :
    ∀ n, eqRatioRow (List.replicate n 0) w dE = 0 := by
  intro n
  unfold eqRatioRow
  have hz : ∀ m (v : List ℚ),
      (List.zipWith (fun d b => d * b) (List.replicate m (0 : ℚ)) v).sum = 0 := by
    intro m
    induction m with
    | zero => intro v; simp
    | succ k ih =>
      intro v
      cases v with
      | nil => simp
      | cons b t => simp [List.replicate_succ, ih t]
  rw [hz]
  ring

/-- C10: the per-temperature rescaling divides every row — reactant-channel
rows included — by its own Boltzmann-weighted sum with no zero-divisor
guard: on a network whose reactant channel `n` lacks state-counting data
(so its density row is all zeros by the C7 behaviour), the rescaling still
processes that row, its `eqRatios` entry is exactly 0, and the row is
mapped through the division `d / 0 * dE`; no row is excluded and no error
is raised beforehand. -/
theorem C10_rescale_zero_divisor (O : Oracles) (net : Network)
    (Elist E0 : List ℚ) (D : List (List ℚ)) (e1 e0g e T dE2 : ℚ) (n : ℕ)
    (ch : List Species) (s0 s1 : Species)
    (h1 : Elist.get? 1 = some e1) (h0 : Elist.get? 0 = some e0g)
    (hch : net.reactants.get? n = some ch)
    (hs0 : ch.get? 0 = some s0) (hs1 : ch.get? 1 = some s1)
    (hmiss : s0.states = none ∨ s1.states = none)
    (hE : E0.get? (n + net.isomers.length) = some e)
    (h : calculateDensitiesOfStates O net Elist E0 = Except.ok D) :
    (rescaleDOS D (Elist.map (fun E => O.pyexp (-E / Rgas / T))) dE2).2.get?
        (net.isomers.length + n) = some 0 ∧
    (rescaleDOS D (Elist.map (fun E => O.pyexp (-E / Rgas / T))) dE2).1.get?
        (net.isomers.length + n) =
      some ((List.replicate Elist.length (0 : ℚ)).map (fun d => d / 0 * dE2)) ∧
    (rescaleDOS D (Elist.map (fun E => O.pyexp (-E / Rgas / T))) dE2).1.length =
      D.length := by
  have hskip := reactantRow_skip O Elist (e1 - e0g) ch e s0 s1 hs0 hs1 hmiss
  obtain ⟨row, hrow, hget⟩ := calcDOS_reactant_row O net Elist E0 D e1 e0g n ch e
    h1 h0 hch hE h
  rw [hskip] at hrow
  injection hrow with hrow
  rw [← hrow] at hget
  unfold rescaleDOS
  refine ⟨?_, ?_, by simp⟩
  · rw [List.get?_map, hget]
    simp only [Option.map_some']
    rw [eqRatioRow_zero_row]
  · rw [List.get?_map, hget]
    simp only [Option.map_some']
    rw [eqRatioRow_zero_row]

/-- C10 witness: the unguarded zero-divisor rescaling on the concrete
network whose reactant channel lacks state-counting data, at `T = 1`,
`dE = 1`. -/
theorem C10_rescale_zero_divisor_witness :
    (rescaleDOS [[1, 1], [0, 0]]
        (([0, 1] : List ℚ).map (fun E => oracleA.pyexp (-E / Rgas / 1))) 1).2.get?
      (netC7.isomers.length + 0) = some 0 ∧
    (rescaleDOS [[1, 1], [0, 0]]
        (([0, 1] : List ℚ).map (fun E => oracleA.pyexp (-E / Rgas / 1))) 1).1.get?
      (netC7.isomers.length + 0) =
      some ((List.replicate ([0, 1] : List ℚ).length (0 : ℚ)).map
        (fun d => d / 0 * 1)) ∧
    (rescaleDOS [[1, 1], [0, 0]]
        (([0, 1] : List ℚ).map (fun E => oracleA.pyexp (-E / Rgas / 1))) 1).1.length =
      ([[1, 1], [0, 0]] : List (List ℚ)).length :=
  C10_rescale_zero_divisor oracleA netC7 [0, 1] [0, 0] [[1, 1], [0, 0]] 1 0 0 1 1 0
    [⟨1, 0, none⟩, ⟨2, 0, some 1⟩] ⟨1, 0, none⟩ ⟨2, 0, some 1⟩ rfl rfl rfl rfl rfl
    (Or.inl rfl) rfl calcDOS_C7

/-- C4 (amended): processing one path reaction: (1) if both channel heads
are isomers (at indices i, j) the forward microcanonical rates go into
`Kij[j,i,:]` and the reverse into `Kij[i,j,:]`, with `Gnj` and `Fim`
untouched and no other `Kij` slot modified; (2) if the reaction goes from
an isomer to a product-only channel — and, as the counterexample forces,
the product channel's first species is not itself listed as an isomer —
only `Gnj` is written, at row index `(product-channel index) + Nreac`, from
a kinetics call that receives no product density (no reverse term). -/
theorem C4_micro_classification (O : Oracles) (net : Network) (Elist : List ℚ)
    (densStates : List (List ℚ)) (T : ℚ) (st : MicroRates) (rxn : Reaction)
    (r0 p0 : Species)
    (hr : rxn.reactants.get? 0 = some r0) (hp : rxn.products.get? 0 = some p0) :
    (r0 ∈ net.isomers → p0 ∈ net.isomers → r0 ≠ p0 →
      ∃ st2, processPathReaction O net Elist densStates T st rxn = Except.ok st2 ∧
        st2.Gnj = st.Gnj ∧ st2.Fim = st.Fim ∧
        st2.Kij (net.isomers.indexOf p0) (net.isomers.indexOf r0) =
          (O.micro rxn Elist (densStates.getD (net.isomers.indexOf r0) [])
            (some (densStates.getD (net.isomers.indexOf p0) [])) T).1 ∧
        st2.Kij (net.isomers.indexOf r0) (net.isomers.indexOf p0) =
          (O.micro rxn Elist (densStates.getD (net.isomers.indexOf r0) [])
            (some (densStates.getD (net.isomers.indexOf p0) [])) T).2 ∧
        ∀ a b, ¬ (a = net.isomers.indexOf p0 ∧ b = net.isomers.indexOf r0) →
          ¬ (a = net.isomers.indexOf r0 ∧ b = net.isomers.indexOf p0) →
          st2.Kij a b = st.Kij a b) ∧
    (r0 ∈ net.isomers → rxn.products ∈ net.products →
      rxn.products ∉ net.reactants → p0 ∉ net.isomers →
      ∃ st2, processPathReaction O net Elist densStates T st rxn = Except.ok st2 ∧
        st2.Kij = st.Kij ∧ st2.Fim = st.Fim ∧
        st2.Gnj = updT st.Gnj
          (net.products.indexOf rxn.products + net.reactants.length)
          (net.isomers.indexOf r0)
          (O.micro rxn Elist (densStates.getD (net.isomers.indexOf r0) [])
            none T).1) := by
  constructor
  · intro h1 h2 hne
    have hij : net.isomers.indexOf r0 ≠ net.isomers.indexOf p0 := by
      intro hEq
      exact hne ((List.indexOf_inj h1 h2).mp hEq)
    have heval : processPathReaction O net Elist densStates T st rxn =
        Except.ok (MicroRates.mk
          (updT (updT st.Kij (net.isomers.indexOf p0) (net.isomers.indexOf r0)
            (O.micro rxn Elist (densStates.getD (net.isomers.indexOf r0) [])
              (some (densStates.getD (net.isomers.indexOf p0) [])) T).1)
            (net.isomers.indexOf r0) (net.isomers.indexOf p0)
            (O.micro rxn Elist (densStates.getD (net.isomers.indexOf r0) [])
              (some (densStates.getD (net.isomers.indexOf p0) [])) T).2)
          st.Gnj st.Fim) := by
      unfold processPathReaction
      rw [pyIdx_ok _ _ _ hr]
      simp only []
      rw [if_pos h1, pyIdx_ok _ _ _ hp]
      simp only []
      rw [if_pos h2]
    refine ⟨_, heval, rfl, rfl, ?_, ?_, ?_⟩
    · show updT (updT st.Kij _ _ _) _ _ _ _ _ = _
      unfold updT
      rw [if_neg (by intro hc; exact hij hc.2), if_pos ⟨rfl, rfl⟩]
    · show updT (updT st.Kij _ _ _) _ _ _ _ _ = _
      unfold updT
      rw [if_pos ⟨rfl, rfl⟩]
    · intro a b hn1 hn2
      show updT (updT st.Kij _ _ _) _ _ _ _ _ = _
      unfold updT
      rw [if_neg hn2, if_neg hn1]
  · intro h1 h2 h3 h4
    have heval : processPathReaction O net Elist densStates T st rxn =
        Except.ok (MicroRates.mk st.Kij
          (updT st.Gnj
            (net.products.indexOf rxn.products + net.reactants.length)
            (net.isomers.indexOf r0)
            (O.micro rxn Elist (densStates.getD (net.isomers.indexOf r0) [])
              none T).1)
          st.Fim) := by
      unfold processPathReaction
      rw [pyIdx_ok _ _ _ hr]
      simp only []
      rw [if_pos h1, pyIdx_ok _ _ _ hp]
      simp only []
      rw [if_neg h4, if_neg h3, if_pos h2]
    exact ⟨_, heval, rfl, rfl, rfl⟩

/-- C4 witness: both classification behaviours on a concrete network, one
isomerization reaction and one irreversible dissociation. -/
theorem C4_micro_classification_witness :
    (∃ st2, processPathReaction oracleA netC4w [0] [[1], [1]] 1 (initRates 1)
        rxnC4a = Except.ok st2 ∧
      st2.Gnj = (initRates 1).Gnj ∧ st2.Fim = (initRates 1).Fim ∧
      st2.Kij (netC4w.isomers.indexOf ⟨1, 0, some 1⟩)
          (netC4w.isomers.indexOf ⟨0, 0, some 0⟩) =
        (oracleA.micro rxnC4a [0]
          (([[1], [1]] : List (List ℚ)).getD (netC4w.isomers.indexOf ⟨0, 0, some 0⟩) [])
          (some (([[1], [1]] : List (List ℚ)).getD
            (netC4w.isomers.indexOf ⟨1, 0, some 1⟩) [])) 1).1 ∧
      st2.Kij (netC4w.isomers.indexOf ⟨0, 0, some 0⟩)
          (netC4w.isomers.indexOf ⟨1, 0, some 1⟩) =
        (oracleA.micro rxnC4a [0]
          (([[1], [1]] : List (List ℚ)).getD (netC4w.isomers.indexOf ⟨0, 0, some 0⟩) [])
          (some (([[1], [1]] : List (List ℚ)).getD
            (netC4w.isomers.indexOf ⟨1, 0, some 1⟩) [])) 1).2 ∧
      ∀ a b, ¬ (a = netC4w.isomers.indexOf ⟨1, 0, some 1⟩ ∧
          b = netC4w.isomers.indexOf ⟨0, 0, some 0⟩) →
        ¬ (a = netC4w.isomers.indexOf ⟨0, 0, some 0⟩ ∧
          b = netC4w.isomers.indexOf ⟨1, 0, some 1⟩) →
        st2.Kij a b = (initRates 1).Kij a b) ∧
    (∃ st2, processPathReaction oracleA netC4w [0] [[1], [1]] 1 (initRates 1)
        rxnC4b = Except.ok st2 ∧
      st2.Kij = (initRates 1).Kij ∧ st2.Fim = (initRates 1).Fim ∧
      st2.Gnj = updT (initRates 1).Gnj
        (netC4w.products.indexOf rxnC4b.products + netC4w.reactants.length)
        (netC4w.isomers.indexOf ⟨0, 0, some 0⟩)
        (oracleA.micro rxnC4b [0]
          (([[1], [1]] : List (List ℚ)).getD (netC4w.isomers.indexOf ⟨0, 0, some 0⟩) [])
          none 1).1) :=
  ⟨(C4_micro_classification oracleA netC4w [0] [[1], [1]] 1 (initRates 1) rxnC4a
      ⟨0, 0, some 0⟩ ⟨1, 0, some 1⟩ rfl rfl).1 (by decide) (by decide) (by decide),
   (C4_micro_classification oracleA netC4w [0] [[1], [1]] 1 (initRates 1) rxnC4b
      ⟨0, 0, some 0⟩ ⟨2, 0, some 2⟩ rfl rfl).2 (by decide) (by decide) (by decide)
      (by decide)⟩

/-- C4 counterexample: `rxnC4c` goes from an isomer to a product-only
channel (the channel sits only in the products list), yet because the
channel's first species is also an isomer the membership tests classify it
as an isomerization: `Kij[1,0,:]` receives the forward rates and `Gnj`
receives nothing, falsifying the claim that such a reaction writes only
`Gnj`. -/
theorem C4_counterexample :
    ((⟨0, 0, some 0⟩ : Species) ∈ netC4c.isomers) ∧
    rxnC4c.products ∈ netC4c.products ∧ rxnC4c.products ∉ netC4c.reactants ∧
    (∃ st2, processPathReaction oracleA netC4c [0] [[1], [1]] 1 (initRates 1)
        rxnC4c = Except.ok st2 ∧ st2.Kij 1 0 = [1] ∧ st2.Gnj 0 0 = [0]) ∧
    ¬ (∃ st2, processPathReaction oracleA netC4c [0] [[1], [1]] 1 (initRates 1)
        rxnC4c = Except.ok st2 ∧ st2.Kij = (initRates 1).Kij ∧
        st2.Gnj = updT (initRates 1).Gnj
          (netC4c.products.indexOf rxnC4c.products + netC4c.reactants.length)
          (netC4c.isomers.indexOf ⟨0, 0, some 0⟩)
          (oracleA.micro rxnC4c [0]
            (([[1], [1]] : List (List ℚ)).getD
              (netC4c.isomers.indexOf ⟨0, 0, some 0⟩) []) none 1).1) := by
  have heval : processPathReaction oracleA netC4c [0] [[1], [1]] 1 (initRates 1)
      rxnC4c = Except.ok (MicroRates.mk
        (updT (updT (initRates 1).Kij 1 0 [1]) 0 1 [2])
        (initRates 1).Gnj (initRates 1).Fim) := rfl
  refine ⟨by decide, by decide, by decide, ⟨_, heval, rfl, rfl⟩, ?_⟩
  rintro ⟨st2, he, hK, _⟩
  rw [heval] at he
  injection he with he
  subst he
  have hpt : ([1] : List ℚ) = [0] := congrFun (congrFun hK 1) 0
  have : (1 : ℚ) = 0 := by
    injection hpt
  norm_num at this

lemma mapME_nil (f : α → Except String β) : mapME f [] = Except.ok [] := rfl

lemma mapME_cons (f : α → Except String β) (a : α) (t : List α) :
    mapME f (a :: t) =
      (f a >>= fun b => mapME f t >>= fun bs => Except.ok (b :: bs)) := rfl

lemma foldlME_nil (f : σ → α → Except String σ) (s : σ) :
    foldlME f s [] = Except.ok s := rfl

lemma foldlME_cons (f : σ → α → Except String σ) (s : σ) (a : α) (t : List α) :
    foldlME f s (a :: t) = (f s a >>= fun s2 => foldlME f s2 t) := rfl

lemma applyMethod_unknown (O : Oracles) (net : Network) (method : String)
    (T P : ℚ) (Elist : List ℚ) (densStates : List (List ℚ))
    (eqRatios E0 Ereac collFreq : List ℚ) (rates : MicroRates)
    (h1 : pyLower method ≠ "modified strong collision")
    (h2 : pyLower method ≠ "reservoir state")
    (h3 : pyLower method ≠ "chemically-significant eigenvalues") :
    applyMethod O net method T P Elist densStates eqRatios E0 Ereac collFreq rates =
      Except.error ("Unknown method \"" ++ method ++ "\".") := by
  unfold applyMethod
  rw [if_neg h1, if_neg h2, if_neg h3]

lemma perPressure_unknown (O : Oracles) (net : Network) (method : String)
    (T : ℚ) (Elist : List ℚ) (densStates : List (List ℚ))
    (eqRatios E0 Ereac : List ℚ) (rates : MicroRates) (P : ℚ)
    (h1 : pyLower method ≠ "modified strong collision")
    (h2 : pyLower method ≠ "reservoir state")
    (h3 : pyLower method ≠ "chemically-significant eigenvalues") :
    perPressure O net method T Elist densStates eqRatios E0 Ereac rates P =
      Except.error ("Unknown method \"" ++ method ++ "\".") := by
  unfold perPressure
  rw [applyMethod_unknown O net method T P Elist densStates eqRatios E0 Ereac
    (net.isomers.map (fun sp => O.collFreq sp T P)) rates h1 h2 h3]

lemma perTemperature_unknown (O : Oracles) (net : Network) (method : String)
    (Plist Elist : List ℚ) (dens0 : List (List ℚ)) (E0 Ereac : List ℚ)
    (dE T : ℚ) (hP : Plist ≠ [])
    (h1 : pyLower method ≠ "modified strong collision")
    (h2 : pyLower method ≠ "reservoir state")
    (h3 : pyLower method ≠ "chemically-significant eigenvalues") :
    ∃ msg, perTemperature O net method Plist Elist dens0 E0 Ereac dE T =
      Except.error msg := by
  unfold perTemperature
  cases hmic : calculateMicrocanonicalRates O net Elist dens0 T with
  | error e => exact ⟨e, rfl⟩
  | ok rates =>
    simp only []
    obtain ⟨P, Ps, rfl⟩ := List.exists_cons_of_ne_nil hP
    rw [mapME_cons]
    rw [perPressure_unknown O net method T Elist _ _ E0 Ereac rates P h1 h2 h3]
    exact ⟨"Unknown method \"" ++ method ++ "\".", rfl⟩

lemma runSweep_unknown (O : Oracles) (net2 : Network) (method : String)
    (Tlist Plist Elist2 E0s Ereacs : List ℚ) (dE : ℚ)
    (hT : Tlist ≠ []) (hP : Plist ≠ [])
    (h1 : pyLower method ≠ "modified strong collision")
    (h2 : pyLower method ≠ "reservoir state")
    (h3 : pyLower method ≠ "chemically-significant eigenvalues") :
    ∃ msg, runSweep O net2 method Tlist Plist Elist2 E0s Ereacs dE =
      Except.error msg := by
  unfold runSweep
  cases hd : calculateDensitiesOfStates O net2 Elist2 E0s with
  | error e => exact ⟨e, rfl⟩
  | ok dens0 =>
    simp only []
    obtain ⟨T, Ts, rfl⟩ := List.exists_cons_of_ne_nil hT
    rw [mapME_cons]
    obtain ⟨msg, hmsg⟩ := perTemperature_unknown O net2 method Plist Elist2 dens0
      E0s Ereacs dE T hP h1 h2 h3
    rw [hmsg]
    exact ⟨msg, rfl⟩

lemma calcDOS_C9 : calculateDensitiesOfStates oracleA netC9 [0, 1] [0] =
    Except.ok [[1, 1]] := by
  unfold calculateDensitiesOfStates
  rw [pyIdx_ok [(0 : ℚ), 1] 1 1 rfl]
  simp only []
  rw [pyIdx_ok [(0 : ℚ), 1] 0 0 rfl]
  simp only []
  rw [show netC9.isomers.enum = [(0, (⟨0, 0, some 0⟩ : Species))] from rfl]
  rw [show netC9.reactants.enum = ([] : List (ℕ × List Species)) from rfl]
  rw [mapME_cons, mapME_nil]
  simp only [except_ok_bind, except_pure_eq]
  rw [pyIdx_ok [(0 : ℚ)] 0 0 rfl]
  simp only []
  rw [isomerRowC7]
  rfl

lemma perT_C9 (E0 Er : List ℚ) (dE : ℚ) :
    perTemperature oracleA netC9 "Reservoir State" [1] [0, 1] [[1, 1]] E0 Er dE 1 =
      Except.ok [[[7]]] := by
  unfold perTemperature
  rw [show calculateMicrocanonicalRates oracleA netC9 [0, 1] [[1, 1]] 1 =
    Except.ok (initRates 2) from rfl]
  simp only []
  rw [mapME_cons, mapME_nil]
  unfold perPressure
  unfold applyMethod
  rw [if_neg (by decide), if_pos (by decide)]
  rw [show oracleA.rs 1 1 [0, 1]
      (rescaleDOS [[1, 1]] (([0, 1] : List ℚ).map
        (fun E => oracleA.pyexp (-E / Rgas / 1))) dE).1
      (buildMcoll oracleA netC9.isomers.length
        (netC9.isomers.map (fun sp => oracleA.collFreq sp 1 1)) [0, 1] 1
        (rescaleDOS [[1, 1]] (([0, 1] : List ℚ).map
          (fun E => oracleA.pyexp (-E / Rgas / 1))) dE).1)
      (initRates 2).Kij (initRates 2).Fim (initRates 2).Gnj Er
      netC9.isomers.length netC9.reactants.length netC9.products.length =
    Except.ok ([[7]], []) from rfl]
  simp only []
  rw [if_pos (by decide)]
  rfl

lemma runSweep_C9 (Er : List ℚ) (dE : ℚ) :
    runSweep oracleA netC9 "Reservoir State" [1] [1] [0, 1] [0] Er dE =
      Except.ok [[[[7]]]] := by
  unfold runSweep
  rw [calcDOS_C9]
  simp only []
  rw [mapME_cons, mapME_nil]
  rw [perT_C9 [0] Er dE]
  rfl

/-- C9: the solver back end is selected by lower-cased comparison against
exactly the three recognized names: (a) with a nonempty (T, P) sweep, any
method whose lower-casing matches none of the three makes
`calculateRateCoefficients` fail with an error; (b)-(d) for each matching
name `applyMethod` invokes exactly that back end (the result is the value
of that oracle alone, with the modified-strong-collision branch scaling the
collision frequencies by the efficiency factor and the
chemically-significant-eigenvalues branch receiving `eqRatios`); (e) on a
concrete one-isomer network the reservoir-state back end's matrix is
written into the aggregate tensor slot `K[0,0,:,:]`. -/
theorem C9_method_dispatch :
    (∀ (O : Oracles) (net : Network) (Tlist Plist Elist : List ℚ) (method : String),
      Tlist ≠ [] → Plist ≠ [] →
      pyLower method ≠ "modified strong collision" →
      pyLower method ≠ "reservoir state" →
      pyLower method ≠ "chemically-significant eigenvalues" →
      ∃ msg, (calculateRateCoefficients O net Tlist Plist Elist method).2 =
        Except.error msg) ∧
    (∀ (O : Oracles) (net : Network) (method : String) (T P : ℚ) (Elist : List ℚ)
      (densStates : List (List ℚ)) (eqRatios E0 Ereac collFreq : List ℚ)
      (rates : MicroRates),
      pyLower method = "modified strong collision" →
      applyMethod O net method T P Elist densStates eqRatios E0 Ereac collFreq
          rates =
        O.msc T P Elist densStates
          (net.isomers.enum.map (fun p =>
            collFreq.getD p.1 0 *
              O.collEff p.2 T Elist (densStates.getD p.1 []) (E0.getD p.1 0)
                (Ereac.getD p.1 0)))
          rates.Kij rates.Fim rates.Gnj Ereac net.isomers.length
          net.reactants.length net.products.length) ∧
    (∀ (O : Oracles) (net : Network) (method : String) (T P : ℚ) (Elist : List ℚ)
      (densStates : List (List ℚ)) (eqRatios E0 Ereac collFreq : List ℚ)
      (rates : MicroRates),
      pyLower method = "reservoir state" →
      applyMethod O net method T P Elist densStates eqRatios E0 Ereac collFreq
          rates =
        O.rs T P Elist densStates
          (buildMcoll O net.isomers.length collFreq Elist T densStates)
          rates.Kij rates.Fim rates.Gnj Ereac net.isomers.length
          net.reactants.length net.products.length) ∧
    (∀ (O : Oracles) (net : Network) (method : String) (T P : ℚ) (Elist : List ℚ)
      (densStates : List (List ℚ)) (eqRatios E0 Ereac collFreq : List ℚ)
      (rates : MicroRates),
      pyLower method = "chemically-significant eigenvalues" →
      applyMethod O net method T P Elist densStates eqRatios E0 Ereac collFreq
          rates =
        O.cse T P Elist densStates
          (buildMcoll O net.isomers.length collFreq Elist T densStates)
          rates.Kij rates.Fim rates.Gnj eqRatios net.isomers.length
          net.reactants.length net.products.length) ∧
    (calculateRateCoefficients oracleA netC9 [1] [1] [0, 1] "Reservoir State").2 =
      Except.ok [[[[7]]]] := by
  refine ⟨?_, ?_, ?_, ?_, ?_⟩
  · intro O net Tlist Plist Elist method hT hP h1 h2 h3
    unfold calculateRateCoefficients
    cases hpre : calcPrelim net Elist with
    | error e => exact ⟨e, rfl⟩
    | ok pre =>
      simp only []
      obtain ⟨msg, hmsg⟩ := runSweep_unknown O
        { net with pathReactions := shiftRxns net.pathReactions Elist.headI }
        method Tlist Plist (Elist.map (fun x => x - Elist.headI))
        (pre.2.1.map (fun x => x - Elist.headI))
        (pre.2.2.map (fun x => x - Elist.headI)) pre.1 hT hP h1 h2 h3
      rw [hmsg]
      exact ⟨msg, rfl⟩
  · intro O net method T P Elist densStates eqRatios E0 Ereac collFreq rates hm
    unfold applyMethod
    rw [if_pos hm]
  · intro O net method T P Elist densStates eqRatios E0 Ereac collFreq rates hm
    unfold applyMethod
    rw [if_neg (by rw [hm]; decide), if_pos hm]
  · intro O net method T P Elist densStates eqRatios E0 Ereac collFreq rates hm
    unfold applyMethod
    rw [if_neg (by rw [hm]; decide), if_neg (by rw [hm]; decide), if_pos hm]
  · unfold calculateRateCoefficients
    rw [show calcPrelim netC9 [0, 1] =
      Except.ok (1 - 0, [0], [(10 : ℚ) ^ 20]) from rfl]
    simp only []
    rw [show (([0, 1] : List ℚ).map (fun x => x - ([0, 1] : List ℚ).headI)) =
      [0 - 0, 1 - 0] from rfl]
    rw [show ([(0 : ℚ) - 0, 1 - 0] : List ℚ) = [0, 1] by norm_num]
    rw [show (([0] : List ℚ).map (fun x => x - ([0, 1] : List ℚ).headI)) =
      [0 - 0] from rfl]
    rw [show ([(0 : ℚ) - 0] : List ℚ) = [0] by norm_num]
    rw [show ({ netC9 with
      pathReactions := shiftRxns netC9.pathReactions ([0, 1] : List ℚ).headI } :
        Network) = netC9 from rfl]
    rw [runSweep_C9]

/-- C9 witness: the dispatch statements at concrete inputs — an unknown
method failing end-to-end, and each of the three recognized names (in mixed
case) routed to its own back end. -/
theorem C9_method_dispatch_witness :
    (∃ msg, (calculateRateCoefficients oracleA netC9 [1] [1] [0, 1] "bogus").2 =
      Except.error msg) ∧
    (applyMethod oracleA netC9 "Modified Strong Collision" 1 1 [0, 1] [[1, 1]]
        [1] [0] [2] [1] (initRates 2) =
      oracleA.msc 1 1 [0, 1] [[1, 1]]
        (netC9.isomers.enum.map (fun p =>
          ([1] : List ℚ).getD p.1 0 *
            oracleA.collEff p.2 1 [0, 1] (([[1, 1]] : List (List ℚ)).getD p.1 [])
              (([0] : List ℚ).getD p.1 0) (([2] : List ℚ).getD p.1 0)))
        (initRates 2).Kij (initRates 2).Fim (initRates 2).Gnj [2]
        netC9.isomers.length netC9.reactants.length netC9.products.length) ∧
    (applyMethod oracleA netC9 "Reservoir State" 1 1 [0, 1] [[1, 1]]
        [1] [0] [2] [1] (initRates 2) =
      oracleA.rs 1 1 [0, 1] [[1, 1]]
        (buildMcoll oracleA netC9.isomers.length [1] [0, 1] 1 [[1, 1]])
        (initRates 2).Kij (initRates 2).Fim (initRates 2).Gnj [2]
        netC9.isomers.length netC9.reactants.length netC9.products.length) ∧
    (applyMethod oracleA netC9 "Chemically-Significant Eigenvalues" 1 1 [0, 1]
        [[1, 1]] [1] [0] [2] [1] (initRates 2) =
      oracleA.cse 1 1 [0, 1] [[1, 1]]
        (buildMcoll oracleA netC9.isomers.length [1] [0, 1] 1 [[1, 1]])
        (initRates 2).Kij (initRates 2).Fim (initRates 2).Gnj [1]
        netC9.isomers.length netC9.reactants.length netC9.products.length) :=
  ⟨C9_method_dispatch.1 oracleA netC9 [1] [1] [0, 1] "bogus" (by simp) (by simp)
      (by decide) (by decide) (by decide),
   C9_method_dispatch.2.1 oracleA netC9 "Modified Strong Collision" 1 1 [0, 1]
      [[1, 1]] [1] [0] [2] [1] (initRates 2) (by decide),
   C9_method_dispatch.2.2.1 oracleA netC9 "Reservoir State" 1 1 [0, 1]
      [[1, 1]] [1] [0] [2] [1] (initRates 2) (by decide),
   C9_method_dispatch.2.2.2.1 oracleA netC9 "Chemically-Significant Eigenvalues"
      1 1 [0, 1] [[1, 1]] [1] [0] [2] [1] (initRates 2) (by decide)⟩

lemma calcPrelim_C1 : calcPrelim netC1 [10, 20] =
    Except.ok (20 - 10, [10, 20], [100, 100]) := by
  unfold calcPrelim
  rw [pyIdx_ok [(10 : ℚ), 20] 1 20 rfl]
  simp only [except_ok_bind]
  rw [pyIdx_ok [(10 : ℚ), 20] 0 10 rfl]
  simp only [except_ok_bind]
  rw [show netC1.isomers = [⟨0, 10, some 0⟩, ⟨1, 20, some 1⟩] from rfl]
  rw [show netC1.pathReactions = [rxnC1] from rfl]
  simp only [mapME_cons, mapME_nil, foldlME_cons, foldlME_nil, except_ok_bind,
    except_pure_eq, pyIdx_ok rxnC1.reactants 0 ⟨0, 10, some 0⟩ rfl,
    pyIdx_ok rxnC1.products 0 ⟨1, 20, some 1⟩ rfl]
  norm_num [rxnC1, Species.mk.injEq]
  rfl

/-- C1: evaluating `calculateRateCoefficients` on the concrete two-isomer
network `netC1` (one path reaction, transition-state energy 100, grid
starting at `Emin = 10`) with the unrecognized method name `"bogus"`: the
call fails inside the (T, P) sweep, after the energy shift of lines 336-342
but before the un-shift of lines 408-411, and the network's path reaction
is left with transition-state energy `100 - 10` instead of the original
100 — the shift is not restored on the failure path. -/
theorem C1_shift_not_restored_on_failure :
    ((calculateRateCoefficients oracleA netC1 [1] [1] [10, 20] "bogus").1.1.map
        (fun r => r.transitionState.E0) = [100 - 10]) ∧
    netC1.pathReactions.map (fun r => r.transitionState.E0) = [100] ∧
    ((100 : ℚ) - 10 ≠ 100) ∧
    (∃ msg, (calculateRateCoefficients oracleA netC1 [1] [1] [10, 20] "bogus").2 =
      Except.error msg) := by
  obtain ⟨msg, hms⟩ := runSweep_unknown oracleA
    { netC1 with pathReactions := shiftRxns netC1.pathReactions ([10, 20] : List ℚ).headI }
    "bogus" [1] [1] (([10, 20] : List ℚ).map (fun x => x - ([10, 20] : List ℚ).headI))
    (((20 - 10 : ℚ), ([10, 20] : List ℚ), ([100, 100] : List ℚ)).2.1.map
      (fun x => x - ([10, 20] : List ℚ).headI))
    (((20 - 10 : ℚ), ([10, 20] : List ℚ), ([100, 100] : List ℚ)).2.2.map
      (fun x => x - ([10, 20] : List ℚ).headI))
    ((20 - 10 : ℚ), ([10, 20] : List ℚ), ([100, 100] : List ℚ)).1
    (by simp) (by simp) (by decide) (by decide) (by decide)
  refine ⟨?_, rfl, by norm_num, ⟨msg, ?_⟩⟩
  · unfold calculateRateCoefficients
    rw [calcPrelim_C1]
    simp only []
    rw [hms]
    rfl
  · unfold calculateRateCoefficients
    rw [calcPrelim_C1]
    simp only []
    rw [hms]

lemma autoLoopGo_zero (O : Oracles) (iso : Species) (Emin Tm : ℚ)
    (st : ℚ × ℚ × Bool) : autoLoopGo O iso Emin Tm 0 st = Except.ok st := rfl

lemma autoLoopGo_step_false (O : Oracles) (iso : Species) (Emin Tm : ℚ) (n : ℕ)
    (m E : ℚ) (st2 : ℚ × ℚ × Bool)
    (hb : autoLoopBody O iso Emin Tm m = Except.ok st2) :
    autoLoopGo O iso Emin Tm (n + 1) (m, E, false) =
      autoLoopGo O iso Emin Tm n st2 := by
  rw [show autoLoopGo O iso Emin Tm (n + 1) (m, E, false) =
      (match autoLoopBody O iso Emin Tm m with
       | Except.error e => Except.error e
       | Except.ok st3 => autoLoopGo O iso Emin Tm n st3) from rfl]
  rw [hb]

lemma zipWith_map_map (f : ℚ → ℚ → ℚ) (g h : ℚ → ℚ) : ∀ l : List ℚ,
    List.zipWith f (l.map g) (l.map h) = l.map (fun x => f (g x) (h x)) := by
  intro l
  induction l with
  | nil => rfl
  | cons x xs ih =>
    rw [List.map_cons, List.map_cons, List.zipWith_cons_cons, ih, List.map_cons]

lemma map_const_eq_replicate (c : ℚ) : ∀ l : List ℚ,
    l.map (fun _ => c) = List.replicate l.length c := by
  intro l
  induction l with
  | nil => rfl
  | cons x xs ih =>
    rw [List.map_cons, ih, List.length_cons, List.replicate_succ]

lemma getD_replicate (c d : ℚ) : ∀ (n i : ℕ), i < n →
    (List.replicate n c).getD i d = c := by
  intro n
  induction n with
  | zero => intro i h; omega
  | succ m ih =>
    intro i h
    rw [List.replicate_succ]
    cases i with
    | zero => rfl
    | succ j =>
      rw [show (c :: List.replicate m c).getD (j + 1) d =
          (List.replicate m c).getD j d from rfl]
      exact ih j (by omega)

lemma argmaxGo_no_gt (bv : ℚ) : ∀ l : List ℚ, (∀ y ∈ l, ¬ bv < y) →
    ∀ best i : ℕ, argmaxGo best bv i l = best := by
  intro l
  induction l with
  | nil => intro _ best i; rfl
  | cons x xs ih =>
    intro h best i
    rw [show argmaxGo best bv i (x :: xs) =
        (if bv < x then argmaxGo i x (i + 1) xs
         else argmaxGo best bv (i + 1) xs) from rfl]
    rw [if_neg (h x (List.mem_cons_self x xs))]
    exact ih (fun y hy => h y (List.mem_cons_of_mem x hy)) best (i + 1)

lemma argmax_replicate (n : ℕ) (c : ℚ) :
    argmax (List.replicate (n + 1) c) = 0 := by
  rw [List.replicate_succ]
  rw [show argmax (c :: List.replicate n c) =
      argmaxGo 0 c 1 (List.replicate n c) from rfl]
  exact argmaxGo_no_gt c (List.replicate n c)
    (fun y hy => by rw [List.eq_of_mem_replicate hy]; exact lt_irrefl c) 0 1

lemma linspaceQ_length (a b : ℚ) (n : ℕ) (h : 2 ≤ n) :
    (linspaceQ a b n).length = n := by
  unfold linspaceQ
  rw [if_neg (by omega), if_neg (by omega)]
  rw [List.length_map, List.length_range]

lemma getEG_count251 (Emin Emax : ℚ) :
    getEnergyGrains Emin Emax 0 251 = Except.ok (linspaceQ Emin Emax 251) := by
  unfold getEnergyGrains
  rw [if_neg (by norm_num), if_neg (by norm_num),
    if_pos (⟨by norm_num, le_rfl⟩ : (0 : ℤ) < 251 ∧ (0 : ℚ) ≤ 0)]
  rfl

/-- On the flat-density oracles `oracleA` every Boltzmann weight is 1, so the
trial equilibrium distribution is uniform. -/
lemma eqDistOf_flat (sid : ℕ) (L : List ℚ) (Tm : ℚ) :
    eqDistOf oracleA sid L Tm =
      List.replicate L.length ((1 : ℚ) / (L.length : ℚ)) := by
  unfold eqDistOf
  rw [show oracleA.dos sid L = L.map (fun _ => (1 : ℚ)) from rfl]
  rw [show L.map (fun E => oracleA.pyexp (-E / Rgas / Tm)) =
      L.map (fun _ => (1 : ℚ)) from rfl]
  rw [zipWith_map_map]
  rw [show (fun x : ℚ => ((fun _ : ℚ => (1 : ℚ)) x) * ((fun _ : ℚ => (1 : ℚ)) x)) =
      (fun _ : ℚ => (1 : ℚ)) from funext fun _ => by norm_num]
  rw [map_const_eq_replicate]
  rw [List.sum_replicate, nsmul_eq_mul, mul_one]
  rw [List.map_replicate]

/-- A uniform (constant, nonzero) equilibrium distribution never meets the
tail-decay test, so the decision tail always grows the margin and reports
`done = false`. -/
lemma autoLoopTail_const (O : Oracles) (iso : Species) (Emin Tm m c : ℚ)
    (Elist : List ℚ) (n : ℕ) (hc : c ≠ 0) :
    autoLoopTail O iso Emin Tm m Elist (List.replicate (n + 1) c) =
      Except.ok (m + 50, ((⌈iso.E0 + m * Rgas * Tm⌉ : ℤ) : ℚ), false) := by
  unfold autoLoopTail
  rw [argmax_replicate]
  rw [List.length_replicate, Nat.add_sub_cancel]
  rw [getD_replicate c 0 (n + 1) n (by omega)]
  rw [getD_replicate c 0 (n + 1) 0 (by omega)]
  rw [div_self hc]
  rw [if_neg (by norm_num)]

lemma autoLoopBody_flat (Emin Tm m : ℚ) :
    autoLoopBody oracleA ⟨0, 0, some 0⟩ Emin Tm m =
      Except.ok (m + 50, ((⌈(0 : ℚ) + m * Rgas * Tm⌉ : ℤ) : ℚ), false) := by
  unfold autoLoopBody
  rw [getEG_count251]
  simp only []
  have hdl : ∀ L : List ℚ, (oracleA.dos 0 L).length = L.length := fun L =>
    List.length_map L _
  rw [if_pos (hdl _)]
  rw [eqDistOf_flat]
  rw [linspaceQ_length]
  · rw [show ((251 : ℕ) : ℚ) = 251 from by norm_num]
    rw [show (251 : ℕ) = 250 + 1 from rfl]
    rw [autoLoopTail_const oracleA ⟨0, 0, some 0⟩ Emin Tm m _ _ 250 (by norm_num)]
  · norm_num

lemma autoLoopGo_C6 (Emin : ℚ) :
    autoLoopGo oracleA ⟨0, 0, some 0⟩ Emin (1000000 / 8314472) 5 (50, 0, false) =
      Except.ok (300, 250, false) := by
  rw [show (5 : ℕ) = 4 + 1 from rfl,
    autoLoopGo_step_false oracleA ⟨0, 0, some 0⟩ Emin (1000000 / 8314472) 4 50 0 _
      (autoLoopBody_flat Emin (1000000 / 8314472) 50)]
  rw [show (4 : ℕ) = 3 + 1 from rfl,
    autoLoopGo_step_false oracleA ⟨0, 0, some 0⟩ Emin (1000000 / 8314472) 3
      (50 + 50) _ _ (autoLoopBody_flat Emin (1000000 / 8314472) (50 + 50))]
  rw [show (3 : ℕ) = 2 + 1 from rfl,
    autoLoopGo_step_false oracleA ⟨0, 0, some 0⟩ Emin (1000000 / 8314472) 2
      (50 + 50 + 50) _ _
      (autoLoopBody_flat Emin (1000000 / 8314472) (50 + 50 + 50))]
  rw [show (2 : ℕ) = 1 + 1 from rfl,
    autoLoopGo_step_false oracleA ⟨0, 0, some 0⟩ Emin (1000000 / 8314472) 1
      (50 + 50 + 50 + 50) _ _
      (autoLoopBody_flat Emin (1000000 / 8314472) (50 + 50 + 50 + 50))]
  rw [show (1 : ℕ) = 0 + 1 from rfl,
    autoLoopGo_step_false oracleA ⟨0, 0, some 0⟩ Emin (1000000 / 8314472) 0
      (50 + 50 + 50 + 50 + 50) _ _
      (autoLoopBody_flat Emin (1000000 / 8314472) (50 + 50 + 50 + 50 + 50))]
  rw [autoLoopGo_zero]
  rw [show ((50 : ℚ) + 50 + 50 + 50 + 50 + 50) = 300 from by norm_num]
  rw [show ((⌈(0 : ℚ) + (50 + 50 + 50 + 50 + 50) * Rgas *
      (1000000 / 8314472)⌉ : ℤ) : ℚ) = 250 from by
    rw [show (0 : ℚ) + (50 + 50 + 50 + 50 + 50) * Rgas * (1000000 / 8314472) =
        ((250 : ℤ) : ℚ) from by norm_num [Rgas]]
    rw [Int.ceil_intCast]
    norm_num]

/-- C6: when the Emax-bounding loop of `autoGenerateEnergyGrains` exhausts
its retry cap of 5 iterations with the tail-mass criterion still
unsatisfied (the loop state comes back with `done = false`), the function
does not surface any error: it falls through to `getEnergyGrains` on the
under-resolved bound and returns that grid, silently — contradicting the
claim that the failure is surfaced as a fatal error. -/
theorem C6_loop_cap_silent (O : Oracles) (net : Network) (Tmax grainSize : ℚ)
    (Ngrains : ℤ) (isomer : Species) (mult Emax1 : ℚ)
    (hgn : ¬ (grainSize = 0 ∧ Ngrains = 0))
    (hsel : net.isomers.foldl (fun acc sp =>
        match acc with
        | none => some sp
        | some m => if m.E0 < sp.E0 then some sp else some m) none = some isomer)
    (hloop : autoLoopGo O isomer
        ((((⌊net.isomers.foldl (fun m sp => if sp.E0 < m then sp.E0 else m)
          ((10 : ℚ) ^ 25)⌋ : ℤ) : ℚ))) Tmax 5 (50, 0, false) =
      Except.ok (mult, Emax1, false)) :
    autoGenerateEnergyGrains O net Tmax grainSize Ngrains =
      getEnergyGrains
        ((((⌊net.isomers.foldl (fun m sp => if sp.E0 < m then sp.E0 else m)
          ((10 : ℚ) ^ 25)⌋ : ℤ) : ℚ)))
        ((⌈Emax1 + max (max isomer.E0
          (net.reactants.foldl (fun m ch =>
            if m < (ch.map Species.E0).sum then (ch.map Species.E0).sum else m)
            ((((⌊net.isomers.foldl (fun m sp => if sp.E0 < m then sp.E0 else m)
              ((10 : ℚ) ^ 25)⌋ : ℤ) : ℚ)))))
          (net.pathReactions.foldl (fun m r =>
            if m < r.transitionState.E0 then r.transitionState.E0 else m)
            ((((⌊net.isomers.foldl (fun m sp => if sp.E0 < m then sp.E0 else m)
              ((10 : ℚ) ^ 25)⌋ : ℤ) : ℚ)))) - isomer.E0⌉ : ℤ) : ℚ)
        grainSize Ngrains := by
  unfold autoGenerateEnergyGrains
  rw [if_neg hgn]
  rw [hsel]
  simp only []
  rw [hloop]

theorem C6_loop_cap_silent_witness :
    (autoLoopGo oracleA ⟨0, 0, some 0⟩
        ((((⌊netC9.isomers.foldl (fun m sp => if sp.E0 < m then sp.E0 else m)
          ((10 : ℚ) ^ 25)⌋ : ℤ) : ℚ))) (1000000 / 8314472) 5 (50, 0, false) =
      Except.ok (300, 250, false)) ∧
    autoGenerateEnergyGrains oracleA netC9 (1000000 / 8314472) 1000 0 =
      Except.ok [0, 1000] := by
  have hEmin : ((((⌊netC9.isomers.foldl (fun m sp => if sp.E0 < m then sp.E0 else m)
      ((10 : ℚ) ^ 25)⌋ : ℤ) : ℚ))) = 0 := by
    rw [show netC9.isomers = [⟨0, 0, some 0⟩] from rfl]
    rw [List.foldl_cons, List.foldl_nil]
    simp only []
    rw [if_pos (by norm_num)]
    norm_num
  refine ⟨autoLoopGo_C6 _, ?_⟩
  rw [C6_loop_cap_silent oracleA netC9 (1000000 / 8314472) 1000 0 ⟨0, 0, some 0⟩
    300 250 (by norm_num) rfl (autoLoopGo_C6 _)]
  rw [hEmin]
  rw [show netC9.reactants = ([] : List (List Species)) from rfl]
  rw [show netC9.pathReactions = ([] : List Reaction) from rfl]
  simp only [List.foldl_nil]
  rw [show ((⌈(250 : ℚ) + max (max 0 0) 0 - 0⌉ : ℤ) : ℚ) = 250 from by
    rw [show (250 : ℚ) + max (max 0 0) 0 - 0 = ((250 : ℤ) : ℚ) from by norm_num]
    rw [Int.ceil_intCast]
    norm_num]
  have hbr : getEnergyGrains 0 250 1000 0 =
      Except.ok (arangeQ 0 (250 + 1000) 1000) := by
    unfold getEnergyGrains
    norm_num
  rw [hbr]
  unfold arangeQ
  rw [show (⌈((250 : ℚ) + 1000 - 0) / 1000⌉ : ℤ) = 2 from by
    rw [Int.ceil_eq_iff]
    norm_num]
  rw [show List.range (Int.toNat 2) = [0, 1] from by decide]
  norm_num
